import Mathlib

/-!
# SPQR: request router, backend shard authentication, admin console, gRPC facade,
balancer's coordinator client

A shallow embedding of the Go sources

* `router/pkg/rrouter/rrouter.go`  (`RRouter`, `PreRoute`, `AddRouteRule`, `initRules`)
* `internal/rrouter/shard.go`      (`ShardImpl`, `ConstructSMh`, `Auth`, `NewShard`)
* `router/pkg/console/console.go`  (`Local`, the console handlers, `ProcessQuery`, `Serve`)
* `router/grpcqrouter/qrouter.go`  (`LocalQrouterServer`)
* `balancer/pkg/coordinator.go`    (`Coordinator`: `ShardsList`, `initKeyRanges`,
  `waitTilDone` and the five key-range operations)

Conventions of the embedding.

* A Go `error` is its message text; `nil` is `none`.
* Interfaces whose implementation lives outside these files (the client, the
  connection, the route pool, the query router, the statement parser) are
  scripted: their answers are parameters, and every call made on them is
  recorded in a trace, in call order.
* A Go `int` is an integer of 64 bits; the functions embedded here never
  leave that range, except for the conversion `int32(...)`, which wraps.
* A send on a channel either completes (a receiver or the buffer takes the
  value) and the sender goes on, or blocks the sender for ever; which of the
  two happens is scripted.
* Calls to the logger (`tracelog.*.Printf/Print`) and to `time.Sleep` have no
  effect on the behaviour studied here and are left out;
  `tracelog.ErrorLogger.Fatal` terminates the process and is an outcome of its
  own.
-/

namespace Spqr

/-! ## Errors and byte strings -/

/-- A Go error value, identified with the text of `err.Error()`. -/
abbrev GoError := String

/-- The error built by `errors.Wrap(err, msg)`, whose text is `msg: err`. -/
def errorsWrap (err : GoError) (msg : String) : GoError :=
  msg ++ ": " ++ err

/-- An argument handed to `fmt.Sprintf`. -/
inductive FmtArg where
  | str (s : String)
  | bytes (b : List Nat)
  | strs (l : List String)
  | err (e : Option GoError)
  deriving DecidableEq, Repr

/-- A `[]byte` value as the source writes it: the conversion of a string
literal, or of the result of `fmt.Sprintf(format, args...)`.  The formatting
itself is left uninterpreted. -/
inductive Bytes where
  | lit (s : String)
  | sprintf (format : String) (args : List FmtArg)
  deriving DecidableEq, Repr

/-! ## Wire messages (`pgproto3`) -/

/-- The `pgproto3.FieldDescription` record. -/
structure FieldDescription where
  Name : Bytes
  TableOID : Nat
  TableAttributeNumber : Nat
  DataTypeOID : Nat
  DataTypeSize : Int
  TypeModifier : Int
  Format : Int
  deriving DecidableEq, Repr

/-- Backend messages of `pgproto3` that the sources build or inspect.
`Authentication` is the single authentication message of `pgproto3` v1 (used
by `shard.go`); `AuthenticationOk` is the v2 message built by the console.
An `ErrorResponse` literal that sets only `Message` leaves `Code` empty. -/
inductive BackendMessage where
  | AuthenticationOk
  | Authentication (AuthType : Nat) (Salt : List Nat)
  | ParameterStatus (Name Value : String)
  | BackendKeyData (ProcessID SecretKey : Nat)
  | NoticeResponse (Message : String)
  | ReadyForQuery
  | ErrorResponse (Code Message : String)
  | RowDescription (Fields : List FieldDescription)
  | DataRow (Values : List Bytes)
  | CommandComplete (CommandTag : Bytes)
  | Unknown (tag : Nat)
  deriving DecidableEq, Repr

/-- The `pgproto3.StartupMessage` record; `Parameters` is the Go map literal,
read through `List.lookup`. -/
structure StartupMessage where
  ProtocolVersion : Nat
  Parameters : List (String × String)
  deriving DecidableEq, Repr

/-- The constant `pgproto3.ProtocolVersionNumber` (protocol 3.0). -/
def ProtocolVersionNumber : Nat := 196608

/-- Frontend messages received by the console session loop. -/
inductive FrontendMessage where
  | Query (String : String)
  | Terminate
  | Unknown (tag : Nat)
  deriving DecidableEq, Repr

/-! ## Request router (`router/pkg/rrouter/rrouter.go`) -/

/-- The `route.RouteKey` record: the (user, database) pair of a session. -/
structure RouteKey where
  usr : String
  db : String
  deriving DecidableEq, Repr

/-- The constructor `route.NewRouteKey(usr, db)`. -/
def NewRouteKey (usr db : String) : RouteKey :=
  { usr := usr, db := db }

/-- The `RK` member of a configured rule. -/
structure RouteKeyCfg where
  Usr : String
  DB : String
  deriving DecidableEq, Repr

/-- A `config.FRRule`: its route key and the remaining settings, which the
router passes along without reading. -/
structure FRRule where
  RK : RouteKeyCfg
  Settings : String
  deriving DecidableEq, Repr

/-- A `config.BERule`: its route key and the remaining settings. -/
structure BERule where
  RK : RouteKeyCfg
  Settings : String
  deriving DecidableEq, Repr

/-- A Go map from route keys to rule pointers.  The outer option is presence
of the key, the inner option is the stored pointer (`none` is `nil`). -/
abbrev RuleMap (ρ : Type) := RouteKey → Option (Option ρ)

/-- The map assignment `m[key] = v`. -/
def RuleMap.set {ρ : Type} (m : RuleMap ρ) (key : RouteKey) (v : Option ρ) : RuleMap ρ :=
  fun k => if k = key then some v else m k

/-- The empty map literal. -/
def RuleMap.empty {ρ : Type} : RuleMap ρ :=
  fun _ => none

/-- The rule maps of `RRouter`. -/
structure RRouter where
  frontendRules : RuleMap FRRule
  backendRules : RuleMap BERule

/-- The method `RRouter.AddRouteRule`: both maps are assigned at `key`; the
returned error is always `nil`. -/
def RRouter.AddRouteRule (r : RRouter) (key : RouteKey) (befule : Option BERule)
    (frRule : Option FRRule) : RRouter × Option GoError :=
  ({ backendRules := r.backendRules.set key befule,
     frontendRules := r.frontendRules.set key frRule }, none)

/-- The first loop of `initRules`: the local map `frs` filled from the
configured frontend rules. -/
def initRules.frs : List FRRule → RuleMap FRRule → RuleMap FRRule
  | [], m => m
  | frRule :: rest, m =>
      initRules.frs rest (m.set (NewRouteKey frRule.RK.Usr frRule.RK.DB) (some frRule))

/-- The Go index expression `frs[key]` with a single result: a missing key
yields the zero value, the `nil` pointer. -/
def RuleMap.index {ρ : Type} (m : RuleMap ρ) (key : RouteKey) : Option ρ :=
  match m key with
  | some v => v
  | none => none

/-- The second loop of `initRules`: one `AddRouteRule` per configured backend
rule, stopping at the first error. -/
def initRules.loop (frs : RuleMap FRRule) : List BERule → RRouter → RRouter × Option GoError
  | [], router => (router, none)
  | berule :: rest, router =>
      let key := NewRouteKey berule.RK.Usr berule.RK.DB
      match router.AddRouteRule key (some berule) (frs.index key) with
      | (router1, some err) => (router1, some err)
      | (router1, none) => initRules.loop frs rest router1

/-- The method `RRouter.initRules` over the configured rule lists. -/
def RRouter.initRules (router : RRouter) (FrontendRules : List FRRule)
    (BackendRules : List BERule) : RRouter × Option GoError :=
  initRules.loop (initRules.frs FrontendRules RuleMap.empty) BackendRules router

/-- The function `NewRouter`, as far as the rule maps go: empty maps, then
`initRules`; an error of `initRules` is returned without a router. -/
def NewRouter (FrontendRules : List FRRule) (BackendRules : List BERule) :
    Except GoError RRouter :=
  match RRouter.initRules { frontendRules := RuleMap.empty, backendRules := RuleMap.empty }
      FrontendRules BackendRules with
  | (_, some err) => .error err
  | (router, none) => .ok router

/-- The calls `PreRoute` makes on the client and on the route pool. -/
inductive RouteEvent where
  | Init
  | Send (msg : BackendMessage)
  | AssignRule (frRule : Option FRRule)
  | Auth
  | MatchRoute (key : RouteKey) (beRule : Option BERule) (frRule : Option FRRule)
  | AddClient
  | AssignRoute
  deriving DecidableEq, Repr

/-- The scripted answers of the client and of the route pool to `PreRoute`. -/
structure PreRouteEnv where
  InitErr : Option GoError
  Usr : String
  DB : String
  SendErr : BackendMessage → Option GoError
  AuthErr : Option GoError
  MatchRouteErr : Option GoError

/-- How a `PreRoute` call ends: `(cl, nil)`, `(nil, err)`, or process exit
through `tracelog.ErrorLogger.Fatal`. -/
inductive PreRouteResult where
  | client
  | error (err : GoError)
  | fatal
  deriving DecidableEq, Repr

/-- The loop of `PreRoute` over the failure replies: each is sent, and the
first failing send ends the call with the wrapped error. -/
def PreRoute.sendAll (env : PreRouteEnv) :
    List BackendMessage → List RouteEvent → List RouteEvent × Option GoError
  | [], tr => (tr, none)
  | msg :: rest, tr =>
      match env.SendErr msg with
      | some err => (tr ++ [RouteEvent.Send msg],
          some (errorsWrap err "failed to make route failure resp"))
      | none => PreRoute.sendAll env rest (tr ++ [RouteEvent.Send msg])

/-- The method `RRouter.PreRoute`: the trace of calls and the result. -/
def RRouter.PreRoute (r : RRouter) (env : PreRouteEnv) : List RouteEvent × PreRouteResult :=
  match env.InitErr with
  | some err => ([RouteEvent.Init], .error err)
  | none =>
    let key := NewRouteKey env.Usr env.DB
    match r.frontendRules key with
    | none =>
        match PreRoute.sendAll env
            [BackendMessage.ErrorResponse "" "failed to preroute"] [RouteEvent.Init] with
        | (tr, some err) => (tr, .error err)
        | (tr, none) => (tr, .error "Failed to preroute client")
    | some frRule =>
        match r.backendRules key with
        | none => ([RouteEvent.Init], .error "Failed to route client")
        | some beRule =>
            let tr := [RouteEvent.Init, RouteEvent.AssignRule frRule, RouteEvent.Auth]
            match env.AuthErr with
            | some err => (tr, .error err)
            | none =>
                let tr1 := tr ++ [RouteEvent.MatchRoute key beRule frRule]
                match env.MatchRouteErr with
                | some _ => (tr1, .fatal)
                | none => (tr1 ++ [RouteEvent.AddClient, RouteEvent.AssignRoute], .client)

/-- The messages a `PreRoute` trace sent to the client, in order. -/
def sentMessages : List RouteEvent → List BackendMessage
  | [] => []
  | RouteEvent.Send msg :: rest => msg :: sentMessages rest
  | _ :: rest => sentMessages rest

/-! ## Backend shard connection (`internal/rrouter/shard.go`) -/

/-- The members of `config.ShardCfg` read by `shard.go`. -/
structure ShardCfg where
  ConnUsr : String
  ConnDB : String
  Passwd : String
  deriving DecidableEq, Repr

/-- What one `Receive` call on the backend connection yields. -/
abbrev Received := Except GoError BackendMessage

/-- A scripted `conn.PgConn`: the answer to the `Send` of the startup message
and the results of the successive `Receive` calls that are available. -/
structure PgConn where
  SendErr : Option GoError
  incoming : List Received

/-- The `ShardImpl` record. -/
structure ShardImpl where
  cfg : ShardCfg
  name : String
  pgconn : PgConn

/-- The method `ShardImpl.ConstructSMh`. -/
def ShardImpl.ConstructSMh (sh : ShardImpl) : StartupMessage :=
  { ProtocolVersion := ProtocolVersionNumber,
    Parameters := [
      ("application_name", "app"),
      ("client_encoding", "UTF8"),
      ("user", sh.cfg.ConnUsr),
      ("database", sh.cfg.ConnDB)] }

/-- How an `Auth` call ends: it returns (an error or `nil`), or it is still
blocked in `Receive` when the scripted input is used up. -/
inductive AuthOutcome where
  | returned (err : Option GoError)
  | waiting
  deriving DecidableEq, Repr

/-- The `for` loop of `ShardImpl.Auth` over the results of `Receive`.  The
first component counts the `Receive` calls made.  `authBackend` is the helper
of the same package that answers an authentication request; its error, if
any, is a parameter. -/
def ShardImpl.authLoop (authBackend : Nat → List Nat → Option GoError) :
    List Received → Nat × AuthOutcome
  | [] => (0, .waiting)
  | .error err :: _ => (1, .returned (some err))
  | .ok .ReadyForQuery :: _ => (1, .returned none)
  | .ok (.Authentication t salt) :: rest =>
      match authBackend t salt with
      | some err => (1, .returned (some err))
      | none =>
          let r := ShardImpl.authLoop authBackend rest
          (r.1 + 1, r.2)
  | .ok (.ErrorResponse _ m) :: _ => (1, .returned (some m))
  | .ok _ :: rest =>
      let r := ShardImpl.authLoop authBackend rest
      (r.1 + 1, r.2)

/-- One run of `Auth`: the startup messages handed to `Send`, the number of
`Receive` calls, and the outcome. -/
structure AuthRun where
  sent : List StartupMessage
  receives : Nat
  outcome : AuthOutcome
  deriving DecidableEq, Repr

/-- The method `ShardImpl.Auth`. -/
def ShardImpl.Auth (authBackend : Nat → List Nat → Option GoError) (sh : ShardImpl)
    (sm : StartupMessage) : AuthRun :=
  match sh.pgconn.SendErr with
  | some err => { sent := [sm], receives := 0, outcome := .returned (some err) }
  | none =>
      let r := ShardImpl.authLoop authBackend sh.pgconn.incoming
      { sent := [sm], receives := r.1, outcome := r.2 }

/-- The scripted results of `net.Dial` and `conn.NewPgConn`. -/
structure DialEnv where
  connectErr : Option GoError
  NewPgConn : Except GoError PgConn

/-- How `NewShard` ends: `(sh, nil)`, `(nil, err)`, or blocked inside `Auth`. -/
inductive NewShardResult where
  | shard (name : String) (cfg : ShardCfg)
  | error (err : GoError)
  | waiting
  deriving DecidableEq, Repr

/-- The function `NewShard`: the startup messages sent and the result. -/
def NewShard (authBackend : Nat → List Nat → Option GoError) (env : DialEnv)
    (name : String) (cfg : ShardCfg) : List StartupMessage × NewShardResult :=
  match env.connectErr with
  | some err => ([], .error err)
  | none =>
      match env.NewPgConn with
      | .error err => ([], .error err)
      | .ok pgconn =>
          let sh : ShardImpl := { cfg := cfg, name := name, pgconn := pgconn }
          let run := sh.Auth authBackend sh.ConstructSMh
          match run.outcome with
          | .returned (some err) => (run.sent, .error err)
          | .returned none => (run.sent, .shard name cfg)
          | .waiting => (run.sent, .waiting)

/-- Messages that `Auth` only logs as ignored: `ParameterStatus` and
`BackendKeyData`. -/
def isDiscarded : Received → Bool
  | .ok (.ParameterStatus _ _) => true
  | .ok (.BackendKeyData _ _) => true
  | _ => false

/-- Received items after which the loop of `Auth` goes on reading: any
message other than `ReadyForQuery` and `ErrorResponse`, an authentication
request only if `authBackend` accepts it. -/
def keepsReading (authBackend : Nat → List Nat → Option GoError) : Received → Bool
  | .error _ => false
  | .ok .ReadyForQuery => false
  | .ok (.ErrorResponse _ _) => false
  | .ok (.Authentication t salt) => (authBackend t salt).isNone
  | .ok _ => true

/-! ## Models consumed by the console and the gRPC facade -/

/-- The `kr.KeyRange` record. -/
structure kr.KeyRange where
  ID : String
  ShardID : String
  LowerBound : List Nat
  UpperBound : List Nat
  deriving DecidableEq, Repr

/-- The `kr.SplitKeyRange` record: `Krid` names the new range, `SourceID` the
range being split. -/
structure kr.SplitKeyRange where
  Krid : String
  SourceID : String
  Bound : List Nat
  deriving DecidableEq, Repr

/-- The `shrule.ShardingRule` record, read through `Columns()`. -/
structure shrule.ShardingRule where
  Columns : List String
  deriving DecidableEq, Repr

/-- The constructor `shrule.NewShardingRule(cols)`. -/
def shrule.NewShardingRule (cols : List String) : shrule.ShardingRule :=
  { Columns := cols }

/-- The query router interface (`qrouter.Qrouter` for the console,
`qrouter.QueryRouter` for the gRPC facade) over a state `σ`: each method turns
the state before the call into the state after it and the method's answer. -/
structure QueryRouter (σ : Type) where
  AddShardingRule : σ → shrule.ShardingRule → σ × Option GoError
  Split : σ → kr.SplitKeyRange → σ × Option GoError
  Lock : σ → String → σ × Option GoError
  AddKeyRange : σ → kr.KeyRange → σ × Option GoError
  AddDataShard : σ → String → ShardCfg → σ × Option GoError
  KeyRanges : σ → σ × Except GoError (List kr.KeyRange)
  Shards : σ → σ × List String
  ListShardingRules : σ → σ × Except GoError (List shrule.ShardingRule)

/-! ## Console statements (`yacc/console`) -/

/-- The parse tree `spqrparser.Show`. -/
structure spqrparser.Show where
  Cmd : String
  deriving DecidableEq, Repr

/-- The parse tree `spqrparser.SplitKeyRange`. -/
structure spqrparser.SplitKeyRange where
  Border : List Nat
  KeyRangeFromID : String
  KeyRangeID : String
  deriving DecidableEq, Repr

/-- The parse tree `spqrparser.Lock`. -/
structure spqrparser.Lock where
  KeyRangeID : String
  deriving DecidableEq, Repr

/-- The parse tree `spqrparser.ShardingColumn`. -/
structure spqrparser.ShardingColumn where
  ColName : String
  deriving DecidableEq, Repr

/-- The parse tree `spqrparser.AddKeyRange`. -/
structure spqrparser.AddKeyRange where
  LowerBound : List Nat
  UpperBound : List Nat
  ShardID : String
  KeyRangeID : String
  deriving DecidableEq, Repr

/-- The parse tree `spqrparser.Shard`. -/
structure spqrparser.Shard where
  Name : String
  deriving DecidableEq, Repr

/-- The dynamic type of a parsed statement, as the type switch of
`ProcessQuery` tells them apart; `Other` is any type the switch does not
name. -/
inductive spqrparser.Statement where
  | Show (stmt : spqrparser.Show)
  | SplitKeyRange (stmt : spqrparser.SplitKeyRange)
  | Lock (stmt : spqrparser.Lock)
  | ShardingColumn (stmt : spqrparser.ShardingColumn)
  | AddKeyRange (stmt : spqrparser.AddKeyRange)
  | Shard (stmt : spqrparser.Shard)
  | Shutdown
  | Other (tag : Nat)
  deriving DecidableEq, Repr

/-- Modelled from the spec: the constant `spqrparser.ShowPoolsStr`, declared in
the grammar package; the admin dialect is `SHOW pools`. -/
def spqrparser.ShowPoolsStr : String := "pools"

/-- Modelled from the spec: the constant `spqrparser.ShowDatabasesStr`, declared
in the grammar package; the admin dialect is `SHOW databases`. -/
def spqrparser.ShowDatabasesStr : String := "databases"

/-- Modelled from the spec: the constant `spqrparser.ShowShardsStr`, declared in
the grammar package; the admin dialect is `SHOW shards`. -/
def spqrparser.ShowShardsStr : String := "shards"

/-- Modelled from the spec: the constant `spqrparser.ShowKeyRangesStr`, declared
in the grammar package; the admin dialect is `SHOW key_ranges`. -/
def spqrparser.ShowKeyRangesStr : String := "key_ranges"

/-- Modelled from the spec: the constant `spqrparser.ShowShardingColumns`,
declared in the grammar package; the admin dialect is `SHOW sharding_columns`. -/
def spqrparser.ShowShardingColumns : String := "sharding_columns"

/-! ## Admin console (`router/pkg/console/console.go`) -/

/-- The calls the console makes on its `client.Client`, `Receive` apart. -/
inductive ClientCall where
  | Send (msg : BackendMessage)
  | ReplyErr (errmsg : String)
  | DefaultReply
  deriving DecidableEq, Repr

/-- A scripted console client: the calls made on it so far and, for the call
number `n` (counted from zero), the error it answers. -/
structure Client where
  calls : List ClientCall
  fails : Nat → Option GoError

/-- One call on the client: it is recorded and answered. -/
def Client.call (cl : Client) (c : ClientCall) : Client × Option GoError :=
  ({ cl with calls := cl.calls ++ [c] }, cl.fails cl.calls.length)

/-- The loop `for _, msg := range msgs` whose body sends `msg` and only logs a
failed send. -/
def sendLogging (cl : Client) : List BackendMessage → Client
  | [] => cl
  | msg :: rest => sendLogging (cl.call (.Send msg)).1 rest

/-- The loop `for _, msg := range msgs` whose body sends `msg` and returns the
error of a failed send. -/
def sendOrReturn (cl : Client) : List BackendMessage → Client × Option GoError
  | [] => (cl, none)
  | msg :: rest =>
      match cl.call (.Send msg) with
      | (cl1, some err) => (cl1, some err)
      | (cl1, none) => sendOrReturn cl1 rest

/-- The field description literal every handler writes: a text column
(`DataTypeOID` 25) with the given name. -/
def textColumn (name : String) : FieldDescription :=
  { Name := .lit name, TableOID := 0, TableAttributeNumber := 0, DataTypeOID := 25,
    DataTypeSize := -1, TypeModifier := -1, Format := 0 }

/-- The method `Local.Databases`. -/
def Local.Databases (cl : Client) : Client × Option GoError :=
  (sendLogging cl [
    .RowDescription [textColumn "show dbs"],
    .DataRow [.lit "show dbs"],
    .CommandComplete (.lit ""),
    .ReadyForQuery], none)

/-- The method `Local.Pools`. -/
def Local.Pools (cl : Client) : Client × Option GoError :=
  (sendLogging cl [
    .RowDescription [textColumn "show pools"],
    .DataRow [.lit "show pools"],
    .CommandComplete (.lit ""),
    .ReadyForQuery], none)

/-- The method `Local.AddShardingColumn`. -/
def Local.AddShardingColumn {σ : Type} (Qrouter : QueryRouter σ) (q : σ) (cl : Client)
    (stmt : spqrparser.ShardingColumn) : (σ × Client) × Option GoError :=
  let r := Qrouter.AddShardingRule q (shrule.NewShardingRule [stmt.ColName])
  ((r.1, sendLogging cl [
    .RowDescription [textColumn "fortune"],
    .DataRow [.sprintf "created sharding column %s, err %w" [.str stmt.ColName, .err r.2]],
    .CommandComplete (.lit ""),
    .ReadyForQuery]), none)

/-- The method `Local.SplitKeyRange`. -/
def Local.SplitKeyRange {σ : Type} (Qrouter : QueryRouter σ) (q : σ) (cl : Client)
    (splitReq : spqrparser.SplitKeyRange) : (σ × Client) × Option GoError :=
  match Qrouter.Split q
      { Bound := splitReq.Border, SourceID := splitReq.KeyRangeFromID,
        Krid := splitReq.KeyRangeID } with
  | (q1, some err) => ((q1, cl), some err)
  | (q1, none) =>
      ((q1, sendLogging cl [
        .RowDescription [textColumn "split key range"],
        .DataRow [.sprintf "split key range %v by %v"
          [.str splitReq.KeyRangeFromID, .bytes splitReq.Border]],
        .CommandComplete (.lit ""),
        .ReadyForQuery]), none)

/-- The method `Local.LockKeyRange`. -/
def Local.LockKeyRange {σ : Type} (Qrouter : QueryRouter σ) (q : σ) (cl : Client)
    (krid : String) : (σ × Client) × Option GoError :=
  match Qrouter.Lock q krid with
  | (q1, some err) => ((q1, cl), some err)
  | (q1, none) =>
      ((q1, sendLogging cl [
        .RowDescription [textColumn "lock key range"],
        .DataRow [.sprintf "lock key range with id %v" [.str krid]],
        .CommandComplete (.lit ""),
        .ReadyForQuery]), none)

/-- The method `Local.AddKeyRange`; `KeyRangeFromSQL` is the conversion of the
`kr` package. -/
def Local.AddKeyRange {σ : Type} (Qrouter : QueryRouter σ)
    (KeyRangeFromSQL : spqrparser.AddKeyRange → kr.KeyRange) (q : σ) (cl : Client)
    (keyRange : spqrparser.AddKeyRange) : (σ × Client) × Option GoError :=
  let r := Qrouter.AddKeyRange q (KeyRangeFromSQL keyRange)
  ((r.1, sendLogging cl [
    .RowDescription [textColumn "add key range"],
    .DataRow [.sprintf "created key range from %d to %d, err %v"
      [.bytes keyRange.LowerBound, .bytes keyRange.UpperBound, .err r.2]],
    .CommandComplete (.lit ""),
    .ReadyForQuery]), none)

/-- The method `Local.AddShard`. -/
def Local.AddShard {σ : Type} (Qrouter : QueryRouter σ) (q : σ) (cl : Client)
    (shard : spqrparser.Shard) (cfg : ShardCfg) : (σ × Client) × Option GoError :=
  let r := Qrouter.AddDataShard q shard.Name cfg
  ((r.1, sendLogging cl [
    .RowDescription [textColumn "add shard"],
    .DataRow [.sprintf "created shard with name %s, %w" [.str shard.Name, .err r.2]],
    .CommandComplete (.lit ""),
    .ReadyForQuery]), none)

/-- The method `Local.KeyRanges`. -/
def Local.KeyRanges {σ : Type} (Qrouter : QueryRouter σ) (q : σ) (cl : Client) :
    (σ × Client) × Option GoError :=
  match sendOrReturn cl [.RowDescription [textColumn "key ranges"]] with
  | (cl1, some err) => ((q, cl1), some err)
  | (cl1, none) =>
      match Qrouter.KeyRanges q with
      | (q1, .error err) => ((q1, cl1), some err)
      | (q1, .ok krs) =>
          let cl2 := sendLogging cl1 (krs.map fun keyRange =>
            .DataRow [.sprintf "key range %v mapped to shard %s"
              [.str keyRange.ID, .str keyRange.ShardID]])
          let cl3 := (cl2.call (.Send (.DataRow [.sprintf "local node" []]))).1
          ((q1, sendLogging cl3 [.CommandComplete (.lit "SELECT 1"), .ReadyForQuery]), none)

/-- The method `Local.Shards`. -/
def Local.Shards {σ : Type} (Qrouter : QueryRouter σ) (q : σ) (cl : Client) :
    (σ × Client) × Option GoError :=
  match sendOrReturn cl [.RowDescription [textColumn "shards"]] with
  | (cl1, some err) => ((q, cl1), some err)
  | (cl1, none) =>
      let r := Qrouter.Shards q
      let cl2 := sendLogging cl1 (r.2.map fun shard =>
        .DataRow [.sprintf "shard with ID %s" [.str shard]])
      let cl3 := (cl2.call (.Send (.DataRow [.sprintf "local node" []]))).1
      ((r.1, sendLogging cl3 [.CommandComplete (.lit "SELECT 1"), .ReadyForQuery]), none)

/-- The method `Local.ShardingColumns`. -/
def Local.ShardingColumns {σ : Type} (Qrouter : QueryRouter σ) (q : σ) (cl : Client) :
    (σ × Client) × Option GoError :=
  match Qrouter.ListShardingRules q with
  | (q1, .error err) => ((q1, cl), some err)
  | (q1, .ok rules) =>
      let cl2 := sendLogging cl (rules.map fun rule =>
        .DataRow [.sprintf "colmns-match sharding rule with colmn set: %+v"
          [.strs rule.Columns]])
      let cl3 := (cl2.call (.Send (.DataRow [.sprintf "local node" []]))).1
      ((q1, sendLogging cl3 [.CommandComplete (.lit "SELECT 1"), .ReadyForQuery]), none)

/-- The console `Local`: the query router behind its interface and that
router's current state, the queries handed to `Qlog.DumpQuery` so far, and the
channel `stchan`: the number of signals sent on it so far and, for the send
number `n` (counted from zero), whether it is taken (by a receiver or by the
buffer); a send that is not taken blocks for ever. -/
structure Local (σ : Type) where
  Qrouter : QueryRouter σ
  qstate : σ
  Qlog : List String
  stchan : Nat
  stchanTaken : Nat → Bool

/-- The functions of other packages that `ProcessQuery` calls: the statement
parser `spqrparser.Parse` and the conversion `kr.KeyRangeFromSQL`. -/
structure ConsoleDeps where
  Parse : String → Except GoError spqrparser.Statement
  KeyRangeFromSQL : spqrparser.AddKeyRange → kr.KeyRange

/-- How a `ProcessQuery` call ends: it returns (an error or `nil`), the
process exits through `tracelog.ErrorLogger.Fatal`, or the call stays blocked
in the send on `stchan`. -/
inductive Outcome where
  | returned (err : Option GoError)
  | fatal
  | blocked
  deriving DecidableEq, Repr

/-- The tail shared by the five mutation cases of `ProcessQuery`: the query is
handed to `Qlog.DumpQuery` if the handler returned an error, and the handler's
result is returned. -/
def Local.dumpIfError {σ : Type} (c : Local σ) (q : String)
    (r : (σ × Client) × Option GoError) : (Local σ × Client) × Outcome :=
  match r with
  | ((q1, cl1), some err) =>
      (({ c with qstate := q1, Qlog := c.Qlog ++ [q] }, cl1), .returned (some err))
  | ((q1, cl1), none) => (({ c with qstate := q1 }, cl1), .returned none)

/-- The return of a `SHOW` handler's result from `ProcessQuery`. -/
def Local.showResult {σ : Type} (c : Local σ)
    (r : (σ × Client) × Option GoError) : (Local σ × Client) × Outcome :=
  (({ c with qstate := r.1.1 }, r.1.2), .returned r.2)

/-- The method `Local.ProcessQuery`. -/
def Local.ProcessQuery {σ : Type} (deps : ConsoleDeps) (c : Local σ) (q : String)
    (cl : Client) : (Local σ × Client) × Outcome :=
  match deps.Parse q with
  | .error err => ((c, cl), .returned (some err))
  | .ok tstmt =>
    match tstmt with
    | .Show stmt =>
        if stmt.Cmd = spqrparser.ShowPoolsStr then
          ((c, (Local.Pools cl).1), .returned (Local.Pools cl).2)
        else if stmt.Cmd = spqrparser.ShowDatabasesStr then
          ((c, (Local.Databases cl).1), .returned (Local.Databases cl).2)
        else if stmt.Cmd = spqrparser.ShowShardsStr then
          c.showResult (Local.Shards c.Qrouter c.qstate cl)
        else if stmt.Cmd = spqrparser.ShowKeyRangesStr then
          c.showResult (Local.KeyRanges c.Qrouter c.qstate cl)
        else if stmt.Cmd = spqrparser.ShowShardingColumns then
          c.showResult (Local.ShardingColumns c.Qrouter c.qstate cl)
        else
          ((c, cl), .returned (some ("Unknown show statement: " ++ stmt.Cmd)))
    | .SplitKeyRange stmt =>
        c.dumpIfError q (Local.SplitKeyRange c.Qrouter c.qstate cl stmt)
    | .Lock stmt =>
        c.dumpIfError q (Local.LockKeyRange c.Qrouter c.qstate cl stmt.KeyRangeID)
    | .ShardingColumn stmt =>
        c.dumpIfError q (Local.AddShardingColumn c.Qrouter c.qstate cl stmt)
    | .AddKeyRange stmt =>
        c.dumpIfError q (Local.AddKeyRange c.Qrouter deps.KeyRangeFromSQL c.qstate cl stmt)
    | .Shard stmt =>
        c.dumpIfError q (Local.AddShard c.Qrouter c.qstate cl stmt
          { ConnUsr := "", ConnDB := "", Passwd := "" })
    | .Shutdown =>
        if c.stchanTaken c.stchan then
          (({ c with stchan := c.stchan + 1 }, cl), .returned none)
        else
          ((c, cl), .blocked)
    | .Other _ =>
        match cl.call .DefaultReply with
        | (cl1, some _) => ((c, cl1), .fatal)
        | (cl1, none) => ((c, cl1), .returned none)

/-- The constant `greeting`. -/
def greeting : String :=
  "\n\n\t\tSQPR router admin console\n\n\tHere you can configure your routing rules\n" ++
  "------------------------------------------------\n\n" ++
  "\tYou can find documentation here \n" ++
  "https://github.com/pg-sharding/spqr/tree/master/doc/router\n\n"

/-- How a `Serve` call ends: it returns the error of a `Receive`, the process
exits through `Fatal`, it stays blocked in the send on `stchan` made for a
`SHUTDOWN` query, or it is blocked in `Receive` when the scripted input is
used up. -/
inductive ServeOutcome where
  | returned (err : GoError)
  | fatal
  | blocked
  | waiting
  deriving DecidableEq, Repr

/-- The first loop of `Serve`: each message is sent; a failed send is fatal
(the second component is then `true`). -/
def sendOrFatal (cl : Client) : List BackendMessage → Client × Bool
  | [] => (cl, false)
  | msg :: rest =>
      match cl.call (.Send msg) with
      | (cl1, some _) => (cl1, true)
      | (cl1, none) => sendOrFatal cl1 rest

/-- The `for` loop of `Serve` over the results of `cl.Receive()`. -/
def Local.serveLoop {σ : Type} (deps : ConsoleDeps) :
    List (Except GoError FrontendMessage) → Local σ → Client →
      (Local σ × Client) × ServeOutcome
  | [], c, cl => ((c, cl), .waiting)
  | .error err :: _, c, cl => ((c, cl), .returned err)
  | .ok (.Query s) :: rest, c, cl =>
      match Local.ProcessQuery deps c s cl with
      | ((c1, cl1), .fatal) => ((c1, cl1), .fatal)
      | ((c1, cl1), .blocked) => ((c1, cl1), .blocked)
      | ((c1, cl1), .returned (some err)) =>
          Local.serveLoop deps rest c1 (cl1.call (.ReplyErr err)).1
      | ((c1, cl1), .returned none) => Local.serveLoop deps rest c1 cl1
  | .ok _ :: rest, c, cl => Local.serveLoop deps rest c cl

/-- The method `Local.Serve` on the given results of `cl.Receive()`. -/
def Local.Serve {σ : Type} (deps : ConsoleDeps) (c : Local σ) (cl : Client)
    (input : List (Except GoError FrontendMessage)) : (Local σ × Client) × ServeOutcome :=
  match sendOrFatal cl [
      .AuthenticationOk,
      .ParameterStatus "integer_datetimes" "on",
      .ParameterStatus "server_version" "console",
      .NoticeResponse greeting,
      .ReadyForQuery] with
  | (cl1, true) => ((c, cl1), .fatal)
  | (cl1, false) => Local.serveLoop deps input c cl1

/-! ## gRPC facade (`router/grpcqrouter/qrouter.go`) -/

/-- The message `protos.ShardingRule`. -/
structure protos.ShardingRule where
  Columns : List String
  deriving DecidableEq, Repr

/-- The message `protos.AddShardingRuleRequest`. -/
structure protos.AddShardingRuleRequest where
  Rules : List protos.ShardingRule
  deriving DecidableEq, Repr

/-- The message `protos.SplitKeyRangeRequest`. -/
structure protos.SplitKeyRangeRequest where
  Krid : String
  Bound : List Nat
  deriving DecidableEq, Repr

/-- The loop of `LocalQrouterServer.AddShardingRules` over the rules of the
request: each rule is added in turn, and the first error ends the call. -/
def AddShardingRules.loop {σ : Type} (qr : QueryRouter σ) :
    List protos.ShardingRule → σ → σ × Option GoError
  | [], q => (q, none)
  | rule :: rest, q =>
      match qr.AddShardingRule q (shrule.NewShardingRule rule.Columns) with
      | (q1, some err) => (q1, some err)
      | (q1, none) => AddShardingRules.loop qr rest q1

/-- The method `LocalQrouterServer.AddShardingRules`: the router state after
the call and the returned error (`none` stands for the empty reply). -/
def LocalQrouterServer.AddShardingRules {σ : Type} (qr : QueryRouter σ) (q : σ)
    (request : protos.AddShardingRuleRequest) : σ × Option GoError :=
  AddShardingRules.loop qr request.Rules q

/-- The method `LocalQrouterServer.SplitKeyRange`: the router state after the
call and the returned error (`none` stands for the empty reply). -/
def LocalQrouterServer.SplitKeyRange {σ : Type} (qr : QueryRouter σ) (q : σ)
    (request : protos.SplitKeyRangeRequest) : σ × Option GoError :=
  match qr.Split q
      { Krid := request.Krid, SourceID := request.Krid, Bound := request.Bound } with
  | (q1, some err) => (q1, some err)
  | (q1, none) => (q1, none)

/-! ## Reply shapes -/

/-- The calls are the sends of a one-column row set: one `RowDescription` with
one field, then `DataRow`s with one value each (the values `rows`), then one
`CommandComplete` and one `ReadyForQuery`. -/
def IsRowSet (calls : List ClientCall) : Prop :=
  ∃ (f : FieldDescription) (rows : List Bytes) (tag : Bytes),
    calls = ClientCall.Send (.RowDescription [f]) ::
      (rows.map (fun v => ClientCall.Send (.DataRow [v])) ++
        [ClientCall.Send (.CommandComplete tag), ClientCall.Send .ReadyForQuery])

/-- The calls are the four sends of a row set with a single row. -/
def IsOneRowReply (calls : List ClientCall) : Prop :=
  ∃ (f : FieldDescription) (v : Bytes) (tag : Bytes),
    calls = [ClientCall.Send (.RowDescription [f]), ClientCall.Send (.DataRow [v]),
      ClientCall.Send (.CommandComplete tag), ClientCall.Send .ReadyForQuery]

/-- The statements of the five mutation commands: `CREATE SHARDING COLUMN`,
`ADD KEY RANGE`, `ADD SHARD`, `SPLIT KEY RANGE`, `LOCK KEY RANGE`. -/
def isMutation : spqrparser.Statement → Bool
  | .ShardingColumn _ => true
  | .AddKeyRange _ => true
  | .Shard _ => true
  | .SplitKeyRange _ => true
  | .Lock _ => true
  | _ => false

/-! ## A routing map for concrete runs -/

/-- The state of the routing map used in concrete runs: its sharding rules in
insertion order, the arguments its `Split` has received, and the error (if
any) with which it answers key-range and shard operations. -/
structure RoutingMap where
  rules : List shrule.ShardingRule
  splits : List kr.SplitKeyRange
  failWith : Option GoError
  deriving DecidableEq, Repr

/-- Two rules name the same column set. -/
def sameColumnSet (a b : shrule.ShardingRule) : Bool :=
  a.Columns.all (fun x => b.Columns.contains x) && b.Columns.all (fun x => a.Columns.contains x)

/-- Modelled from the spec: the routing map's `addShardingRule(rule)`, whose
implementation is outside these files: it "rejects duplicates by column set;
otherwise appends". -/
def RoutingMap.addShardingRule (m : RoutingMap) (rule : shrule.ShardingRule) :
    RoutingMap × Option GoError :=
  if m.rules.any (fun r => sameColumnSet r rule) then
    (m, some "sharding rule already present")
  else
    ({ m with rules := m.rules ++ [rule] }, none)

/-- The routing map behind the query router interface: `AddShardingRule` as
the spec has it, `Split` recording its argument, the other operations
answering with the scripted error. -/
def routingMapRouter : QueryRouter RoutingMap :=
  { AddShardingRule := RoutingMap.addShardingRule,
    Split := fun m req => ({ m with splits := m.splits ++ [req] }, m.failWith),
    Lock := fun m _ => (m, m.failWith),
    AddKeyRange := fun m _ => (m, m.failWith),
    AddDataShard := fun m _ _ => (m, m.failWith),
    KeyRanges := fun m =>
      match m.failWith with
      | some err => (m, .error err)
      | none => (m, .ok []),
    Shards := fun m => (m, ["sh1", "sh2"]),
    ListShardingRules := fun m =>
      match m.failWith with
      | some err => (m, .error err)
      | none => (m, .ok m.rules) }

/-! ## Go conversions used by the balancer -/

/-- The value of a decimal digit character, `none` for any other character. -/
def digitValue (c : Char) : Option Nat :=
  if 48 ≤ c.toNat ∧ c.toNat ≤ 57 then some (c.toNat - 48) else none

/-- The value of a string of decimal digits read after `acc`; `none` if a
character is not a decimal digit. -/
def parseDigits : List Char → Nat → Option Nat
  | [], acc => some acc
  | c :: rest, acc =>
      match digitValue c with
      | none => none
      | some d => parseDigits rest (acc * 10 + d)

/-- The two errors of `strconv`: `ErrSyntax` and `ErrRange`. -/
inductive AtoiFailure where
  | ErrSyntax
  | ErrRange
  deriving DecidableEq, Repr

/-- What `strconv.Atoi` computes for a 64-bit `int`: the input is an optional
sign followed by at least one decimal digit and nothing else, otherwise it is
rejected with `ErrSyntax`; a value outside the `int` range is rejected with
`ErrRange`. -/
def atoiValue (s : String) : Except AtoiFailure Int :=
  let signed : Bool × List Char :=
    match s.toList with
    | '+' :: rest => (false, rest)
    | '-' :: rest => (true, rest)
    | cs => (false, cs)
  if signed.2 = [] then .error .ErrSyntax
  else
    match parseDigits signed.2 0 with
    | none => .error .ErrSyntax
    | some v =>
        let n : Int := if signed.1 then -(v : Int) else (v : Int)
        if -9223372036854775808 ≤ n ∧ n ≤ 9223372036854775807 then .ok n
        else .error .ErrRange

/-- The library function `strconv.Atoi`.  Its error is a `*NumError` whose
text is `strconv.Atoi: parsing`, the input quoted by `strconv.Quote`, and
`invalid syntax` or `value out of range`.  The library function
`strconv.Quote` is the parameter `Quote`. -/
def Atoi (Quote : String → String) (s : String) : Except GoError Int :=
  match atoiValue s with
  | .ok n => .ok n
  | .error .ErrSyntax => .error ("strconv.Atoi: parsing " ++ Quote s ++ ": invalid syntax")
  | .error .ErrRange => .error ("strconv.Atoi: parsing " ++ Quote s ++ ": value out of range")

/-- The Go conversion `int32(n)` of an `int`: the value is wrapped to 32 bits,
two's complement. -/
def int32 (n : Int) : Int :=
  (n + 2147483648) % 4294967296 - 2147483648

/-- The Go conversion `string(r)` of an integer `r`: the string made of the
one code point `r`, or of U+FFFD when `r` is not a valid code point. -/
def stringOfRune (r : Int) : String :=
  if 0 ≤ r ∧ (r < 55296 ∨ (57343 < r ∧ r ≤ 1114111)) then
    String.singleton (Char.ofNat r.toNat)
  else
    String.singleton (Char.ofNat 65533)

/-- A Go map with keys `κ` and values `ν`. -/
abbrev GoMap (κ ν : Type) := κ → Option ν

/-- The map assignment `m[key] = v`. -/
def GoMap.set {κ ν : Type} [DecidableEq κ] (m : GoMap κ ν) (key : κ) (v : ν) : GoMap κ ν :=
  fun k => if k = key then some v else m k

/-- The empty map literal. -/
def GoMap.empty {κ ν : Type} : GoMap κ ν :=
  fun _ => none

/-! ## Balancer's coordinator client (`balancer/pkg/coordinator.go`) -/

/-- Modelled from the spec: the enumeration `routerproto.OperationStatus`,
declared in the generated protocol package; an operation's status is one of
`pending`, `done`, `failed`. -/
inductive routerproto.OperationStatus where
  | PENDING
  | DONE
  | FAILED
  deriving DecidableEq, Repr

/-- The message `routerproto.ShardInfo`. -/
structure routerproto.ShardInfo where
  Hosts : List String
  Port : String
  deriving DecidableEq, Repr

/-- An entry of the `ListShards` reply: the shard's id. -/
structure routerproto.Shard where
  Id : String
  deriving DecidableEq, Repr

/-- The message `routerproto.KeyRange`. -/
structure routerproto.KeyRange where
  LowerBound : String
  UpperBound : String
  deriving DecidableEq, Repr

/-- An entry of the `ListKeyRange` reply: a key range and the id of its shard. -/
structure routerproto.KeyRangeInfo where
  KeyRange : routerproto.KeyRange
  ShardId : String
  deriving DecidableEq, Repr

/-- The message `routerproto.MoveKeyRangeRequest`. -/
structure routerproto.MoveKeyRangeRequest where
  KeyRange : routerproto.KeyRange
  ToShardId : String
  deriving DecidableEq, Repr

/-- The balancer's `Shard` record. -/
structure Shard where
  id : Int
  deriving DecidableEq, Repr

/-- The balancer's `KeyRange` record. -/
structure KeyRange where
  left : String
  right : String
  deriving DecidableEq, Repr

/-- What one `GetOperation` call yields: an error, or the operation's status. -/
abbrev Polled := Except GoError routerproto.OperationStatus

/-- The scripted answers of the coordinator's gRPC services. `GetOperation`
gives, per operation id, the results of the successive polls that are
available. -/
structure CoordinatorEnv where
  ListShards : Except GoError (List routerproto.Shard)
  GetShardInfo : String → Except GoError routerproto.ShardInfo
  ListKeyRange : Except GoError (List routerproto.KeyRangeInfo)
  GetOperation : String → List Polled
  LockKeyRange : routerproto.KeyRange → Except GoError String
  UnlockKeyRange : routerproto.KeyRange → Except GoError String
  SplitKeyRange : String → Except GoError String
  MergeKeyRange : String → Except GoError String
  MoveKeyRange : routerproto.MoveKeyRangeRequest → Except GoError String

/-- The members of `Coordinator` that its methods read. -/
structure Coordinator where
  maxRetriesCount : Int
  addr : String
  deriving DecidableEq, Repr

/-- The loop of `Coordinator.ShardsList` over the listed shards. -/
def ShardsList.loop (Quote : String → String) (env : CoordinatorEnv) :
    List routerproto.Shard → GoMap Int routerproto.ShardInfo →
      Except GoError (GoMap Int routerproto.ShardInfo)
  | [], res => .ok res
  | shard :: rest, res =>
      match env.GetShardInfo shard.Id with
      | .error err => .error err
      | .ok respShard =>
          match Atoi Quote shard.Id with
          | .error err => .error err
          | .ok id =>
              ShardsList.loop Quote env rest
                (res.set id { Hosts := respShard.Hosts, Port := respShard.Port })

/-- The method `Coordinator.ShardsList`. -/
def Coordinator.ShardsList (Quote : String → String) (env : CoordinatorEnv) :
    Except GoError (GoMap Int routerproto.ShardInfo) :=
  match env.ListShards with
  | .error err => .error err
  | .ok shards => ShardsList.loop Quote env shards GoMap.empty

/-- How a `waitTilDone` call ends: it returns (an error or `nil`), or it is
still polling when the scripted answers are used up. -/
inductive WaitOutcome where
  | returned (err : Option GoError)
  | polling
  deriving DecidableEq, Repr

/-- The loop of `Coordinator.waitTilDone` with the current value of `retries`.
The first component counts the `GetOperation` calls made. -/
def waitTilDone.loop (maxRetriesCount : Int) : List Polled → Int → Nat × WaitOutcome
  | [], _ => (0, .polling)
  | .ok status :: rest, retries =>
      if status = routerproto.OperationStatus.DONE then (1, .returned none)
      else
        let r := waitTilDone.loop maxRetriesCount rest retries
        (r.1 + 1, r.2)
  | .error err :: rest, retries =>
      if retries + 1 ≥ maxRetriesCount then (1, .returned (some err))
      else
        let r := waitTilDone.loop maxRetriesCount rest (retries + 1)
        (r.1 + 1, r.2)

/-- The method `Coordinator.waitTilDone` on the available answers of
`GetOperation` for the operation: `retries` starts at zero. -/
def Coordinator.waitTilDone (c : Coordinator) (env : CoordinatorEnv) (operationID : String) :
    Nat × WaitOutcome :=
  waitTilDone.loop c.maxRetriesCount (env.GetOperation operationID) 0

/-- The loop of `Coordinator.initKeyRanges` over the listed key ranges. -/
def initKeyRanges.loop (Quote : String → String) :
    List routerproto.KeyRangeInfo → GoMap Shard (List KeyRange) →
      Except GoError (GoMap Shard (List KeyRange))
  | [], res => .ok res
  | kr :: rest, res =>
      match Atoi Quote kr.ShardId with
      | .error err => .error err
      | .ok id =>
          let shard : Shard := { id := id }
          let res1 := if (res shard).isSome then res else res.set shard []
          initKeyRanges.loop Quote rest
            (res1.set shard (((res1 shard).getD []) ++
              [{ left := kr.KeyRange.LowerBound, right := kr.KeyRange.UpperBound }]))

/-- The method `Coordinator.initKeyRanges`. -/
def Coordinator.initKeyRanges (Quote : String → String) (env : CoordinatorEnv) :
    Except GoError (GoMap Shard (List KeyRange)) :=
  match env.ListKeyRange with
  | .error err => .error err
  | .ok krs => initKeyRanges.loop Quote krs GoMap.empty

/-- The shared shape of the five operations: the service call, then
`waitTilDone` on the operation id of its reply. -/
def Coordinator.await (c : Coordinator) (env : CoordinatorEnv) :
    Except GoError String → Nat × WaitOutcome
  | .error err => (0, .returned (some err))
  | .ok operationId => c.waitTilDone env operationId

/-- The method `Coordinator.lockKeyRange`. -/
def Coordinator.lockKeyRange (c : Coordinator) (env : CoordinatorEnv) (rng : KeyRange) :
    Nat × WaitOutcome :=
  c.await env (env.LockKeyRange { LowerBound := rng.left, UpperBound := rng.right })

/-- The method `Coordinator.unlockKeyRange`. -/
def Coordinator.unlockKeyRange (c : Coordinator) (env : CoordinatorEnv) (rng : KeyRange) :
    Nat × WaitOutcome :=
  c.await env (env.UnlockKeyRange { LowerBound := rng.left, UpperBound := rng.right })

/-- The method `Coordinator.splitKeyRange`. -/
def Coordinator.splitKeyRange (c : Coordinator) (env : CoordinatorEnv) (border : String) :
    Nat × WaitOutcome :=
  c.await env (env.SplitKeyRange border)

/-- The method `Coordinator.mergeKeyRanges`. -/
def Coordinator.mergeKeyRanges (c : Coordinator) (env : CoordinatorEnv) (border : String) :
    Nat × WaitOutcome :=
  c.await env (env.MergeKeyRange border)

/-- The request that `Coordinator.moveKeyRange` builds. -/
def moveKeyRange.request (rng : KeyRange) (shardTo : Shard) : routerproto.MoveKeyRangeRequest :=
  { KeyRange := { LowerBound := rng.left, UpperBound := rng.right },
    ToShardId := stringOfRune (int32 shardTo.id) }

/-- The method `Coordinator.moveKeyRange`. -/
def Coordinator.moveKeyRange (c : Coordinator) (env : CoordinatorEnv) (rng : KeyRange)
    (shardTo : Shard) : Nat × WaitOutcome :=
  c.await env (env.MoveKeyRange (moveKeyRange.request rng shardTo))

/-- A poll that failed: `GetOperation` returned an error. -/
def isFailedPoll : Polled → Bool
  | .error _ => true
  | .ok _ => false

/-- A poll that succeeded and reported the status `DONE`. -/
def isDonePoll : Polled → Bool
  | .ok .DONE => true
  | _ => false

/-- The same poll with a reported status `FAILED` replaced by `PENDING`. -/
def failedAsPending : Polled → Polled
  | .ok .FAILED => .ok .PENDING
  | x => x

/-- The frontend-rule and backend-rule maps have the same key set. -/
def SameKeys (r : RRouter) : Prop :=
  ∀ k, (r.frontendRules k).isSome = (r.backendRules k).isSome

/-- The calls of the Routing state: `MatchRoute`, `AddClient`, `AssignRoute`. -/
def isRoutingEvent : RouteEvent → Bool
  | .MatchRoute _ _ _ => true
  | .AddClient => true
  | .AssignRoute => true
  | _ => false

/-- A call of `AssignRule`. -/
def isAssignRule : RouteEvent → Bool
  | .AssignRule _ => true
  | _ => false

/-- A call of `AssignRoute`. -/
def isAssignRoute : RouteEvent → Bool
  | .AssignRoute => true
  | _ => false

/-- The statements `CREATE SHARDING COLUMN`, `ADD KEY RANGE` and `ADD SHARD`. -/
def isCreateOrAdd : spqrparser.Statement → Bool
  | .ShardingColumn _ => true
  | .AddKeyRange _ => true
  | .Shard _ => true
  | _ => false

/-! ## Concrete inputs -/

/-- A router with no rule at all. -/
def emptyRouter : RRouter :=
  { frontendRules := RuleMap.empty, backendRules := RuleMap.empty }

/-- A client `alice` on `db1` whose calls all succeed. -/
def aliceEnv : PreRouteEnv :=
  { InitErr := none, Usr := "alice", DB := "db1", SendErr := fun _ => none,
    AuthErr := none, MatchRouteErr := none }

/-- A shard configuration with user `u1` and database `db1`. -/
def cfgU1 : ShardCfg :=
  { ConnUsr := "u1", ConnDB := "db1", Passwd := "" }

/-- A backend helper that accepts every authentication request. -/
def acceptAll : Nat → List Nat → Option GoError :=
  fun _ _ => none

/-- A shard whose backend answers the startup with an authentication request,
one parameter status and then an error. -/
def rejectedShard : ShardImpl :=
  { cfg := cfgU1, name := "sh1",
    pgconn := { SendErr := none,
                incoming := [.ok (.Authentication 0 []), .ok (.ParameterStatus "a" "b"),
                  .ok (.ErrorResponse "28000" "no such role"), .ok .ReadyForQuery] } }

/-- A shard whose backend accepts the session. -/
def acceptedShard : ShardImpl :=
  { cfg := cfgU1, name := "sh1",
    pgconn := { SendErr := none,
                incoming := [.ok (.Authentication 0 []), .ok (.ParameterStatus "a" "b"),
                  .ok (.BackendKeyData 42 7), .ok .ReadyForQuery] } }

/-- The same backend as `acceptedShard` without the discarded messages. -/
def acceptedShardBare : ShardImpl :=
  { cfg := cfgU1, name := "sh1",
    pgconn := { SendErr := none,
                incoming := [.ok (.Authentication 0 []), .ok .ReadyForQuery] } }

/-- A stand-in for the statement parser on a handful of console queries. -/
def demoParse (q : String) : Except GoError spqrparser.Statement :=
  if q = "SHOW shards" then .ok (.Show { Cmd := "shards" })
  else if q = "SHOW key_ranges" then .ok (.Show { Cmd := "key_ranges" })
  else if q = "SHOW sharding_columns" then .ok (.Show { Cmd := "sharding_columns" })
  else if q = "CREATE SHARDING COLUMN id" then .ok (.ShardingColumn { ColName := "id" })
  else if q = "ADD KEY RANGE 1 10 sh1 kr1" then
    .ok (.AddKeyRange
      { LowerBound := [1], UpperBound := [10], ShardID := "sh1", KeyRangeID := "kr1" })
  else if q = "ADD SHARD sh3" then .ok (.Shard { Name := "sh3" })
  else if q = "LOCK KEY RANGE kr1" then .ok (.Lock { KeyRangeID := "kr1" })
  else if q = "SHUTDOWN" then .ok .Shutdown
  else .error "syntax error"

/-- The dependencies of the console in concrete runs. -/
def demoDeps : ConsoleDeps :=
  { Parse := demoParse,
    KeyRangeFromSQL := fun s =>
      { ID := s.KeyRangeID,
        ShardID := s.ShardID,
        LowerBound := s.LowerBound,
        UpperBound := s.UpperBound } }

/-- A console client with no call made yet and whose calls all succeed. -/
def freshClient : Client :=
  { calls := [], fails := fun _ => none }

/-- A console over a routing map that holds the rule on column `id` and
answers every key-range and shard operation with the error `storage down`. -/
def failingConsole : Local RoutingMap :=
  { Qrouter := routingMapRouter,
    qstate := { rules := [{ Columns := ["id"] }], splits := [], failWith := some "storage down" },
    Qlog := [], stchan := 0, stchanTaken := fun _ => true }

/-- The console of `failingConsole` when nobody receives from `stchan`. -/
def unattendedConsole : Local RoutingMap :=
  { failingConsole with stchanTaken := fun _ => false }

/-- A console over an empty routing map whose operations succeed. -/
def healthyConsole : Local RoutingMap :=
  { Qrouter := routingMapRouter,
    qstate := { rules := [], splits := [], failWith := none },
    Qlog := [], stchan := 0, stchanTaken := fun _ => true }

/-- A coordinator client with the retry budget that `NewApp` passes to `Init`. -/
def balancerCoordinator : Coordinator :=
  { maxRetriesCount := 3, addr := "coordinator:7002" }

/-- Coordinator answers for concrete runs: the shards `1` and `2`, three key
ranges, and three operations: `op1` is polled as `FAILED` and then as `DONE`,
`op2` fails three polls with a pending poll in between, `op3` is polled as
`FAILED` four times. -/
def demoCoordinator : CoordinatorEnv :=
  { ListShards := .ok [{ Id := "1" }, { Id := "2" }],
    GetShardInfo := fun id => .ok { Hosts := [id ++ ".db:6432"], Port := "6432" },
    ListKeyRange := .ok [
      { KeyRange := { LowerBound := "a", UpperBound := "f" }, ShardId := "1" },
      { KeyRange := { LowerBound := "f", UpperBound := "m" }, ShardId := "2" },
      { KeyRange := { LowerBound := "m", UpperBound := "z" }, ShardId := "1" }],
    GetOperation := fun id =>
      if id = "op1" then [.ok .FAILED, .ok .DONE]
      else if id = "op2" then [.error "e1", .ok .PENDING, .error "e2", .error "e3", .ok .DONE]
      else if id = "op3" then List.replicate 4 (.ok .FAILED)
      else [],
    LockKeyRange := fun _ => .ok "op1",
    UnlockKeyRange := fun _ => .ok "op1",
    SplitKeyRange := fun _ => .ok "op1",
    MergeKeyRange := fun _ => .ok "op1",
    MoveKeyRange := fun _ => .ok "op1" }

/-- A backend rule for `alice` on `db1`. -/
def aliceBackendRule : BERule :=
  { RK := { Usr := "alice", DB := "db1" }, Settings := "pool" }

/-- A frontend rule for `alice` on `db1`. -/
def aliceFrontendRule : FRRule :=
  { RK := { Usr := "alice", DB := "db1" }, Settings := "trust" }

/-! ## Theorems: request router -/

/-- C1 (counterexample): on the router without rules, the client `alice`/`db1`
has no frontend rule, and no message sent by `PreRoute` is an `ErrorResponse`
with code `28P01` and message `unknown role`. -/
theorem preRoute_reply_not_28P01 :
    emptyRouter.frontendRules (NewRouteKey aliceEnv.Usr aliceEnv.DB) = none ∧
    BackendMessage.ErrorResponse "28P01" "unknown role" ∉
      sentMessages (emptyRouter.PreRoute aliceEnv).1 := by
  refine ⟨rfl, ?_⟩
  simp [RRouter.PreRoute, emptyRouter, aliceEnv, RuleMap.empty, PreRoute.sendAll, sentMessages]

/-- C1 (amended): when the client initialises and its route key has no entry
in the frontend rules, `PreRoute` makes exactly one send, of an `ErrorResponse`
with empty SQLSTATE code and message `failed to preroute`, and returns an
error without a client: `Failed to preroute client` when the send succeeded,
the wrapped send error otherwise.  No rule is assigned and no route matched. -/
theorem preRoute_missing_frontend_rule (r : RRouter) (env : PreRouteEnv)
    (hInit : env.InitErr = none)
    (hmiss : r.frontendRules (NewRouteKey env.Usr env.DB) = none) :
    (r.PreRoute env).1 =
      [RouteEvent.Init, RouteEvent.Send (.ErrorResponse "" "failed to preroute")] ∧
    (r.PreRoute env).2 =
      (match env.SendErr (.ErrorResponse "" "failed to preroute") with
       | some err => PreRouteResult.error (errorsWrap err "failed to make route failure resp")
       | none => PreRouteResult.error "Failed to preroute client") := by
  unfold RRouter.PreRoute
  simp only [hInit, hmiss]
  cases h : env.SendErr (.ErrorResponse "" "failed to preroute") <;>
    simp [PreRoute.sendAll, h]

/-- C1 (witness): the amended statement at the router without rules. -/
theorem preRoute_missing_frontend_rule_witness :
    (emptyRouter.PreRoute aliceEnv).1 =
      [RouteEvent.Init, RouteEvent.Send (.ErrorResponse "" "failed to preroute")] ∧
    (emptyRouter.PreRoute aliceEnv).2 = PreRouteResult.error "Failed to preroute client" :=
  preRoute_missing_frontend_rule emptyRouter aliceEnv rfl rfl

/-! ## Theorems: backend authentication -/

/-- While the received items keep the loop reading, the loop passes over
them: it consumes them all and continues with what follows. -/
theorem authLoop_append (authBackend : Nat → List Nat → Option GoError)
    (pre tail : List Received) (hpre : ∀ x ∈ pre, keepsReading authBackend x = true) :
    ShardImpl.authLoop authBackend (pre ++ tail) =
      ((ShardImpl.authLoop authBackend tail).1 + pre.length,
       (ShardImpl.authLoop authBackend tail).2) := by
  induction pre with
  | nil => simp
  | cons x pre ih =>
      have hx := hpre x (List.mem_cons_self _ _)
      have ih1 := ih (fun y hy => hpre y (List.mem_cons_of_mem _ hy))
      rcases x with e | m
      · simp [keepsReading] at hx
      · cases m <;>
          simp_all [keepsReading, ShardImpl.authLoop, Nat.add_assoc, Option.isNone_iff_eq_none]

/-- C2: if the startup message was sent and the backend's answers are `pre`,
all of which keep the loop reading (no receive error, no `ReadyForQuery`, no
failed authentication step), followed by an `ErrorResponse` with message `m`,
then `Auth` returns the error `m` after exactly `pre.length + 1` receives:
nothing after the `ErrorResponse` is read. -/
theorem auth_fails_on_error_response (authBackend : Nat → List Nat → Option GoError)
    (sh : ShardImpl) (sm : StartupMessage) (pre rest : List Received) (code m : String)
    (hsend : sh.pgconn.SendErr = none)
    (hin : sh.pgconn.incoming = pre ++ .ok (.ErrorResponse code m) :: rest)
    (hpre : ∀ x ∈ pre, keepsReading authBackend x = true) :
    (sh.Auth authBackend sm).outcome = .returned (some m) ∧
    (sh.Auth authBackend sm).receives = pre.length + 1 := by
  unfold ShardImpl.Auth
  simp only [hsend, hin, authLoop_append authBackend pre _ hpre]
  simp [ShardImpl.authLoop, Nat.add_comm]

/-- C2 (witness): the backend that answers with an error after two messages. -/
theorem auth_fails_on_error_response_witness :
    (rejectedShard.Auth acceptAll rejectedShard.ConstructSMh).outcome =
      .returned (some "no such role") ∧
    (rejectedShard.Auth acceptAll rejectedShard.ConstructSMh).receives = 2 + 1 :=
  auth_fails_on_error_response acceptAll rejectedShard rejectedShard.ConstructSMh
    [.ok (.Authentication 0 []), .ok (.ParameterStatus "a" "b")] [.ok .ReadyForQuery]
    "28000" "no such role" rfl rfl (by simp [keepsReading, acceptAll])

/-- A discarded message in front of the input does not change the outcome. -/
theorem authLoop_cons_discarded (authBackend : Nat → List Nat → Option GoError)
    (x : Received) (s : List Received) (hx : isDiscarded x = true) :
    (ShardImpl.authLoop authBackend (x :: s)).2 = (ShardImpl.authLoop authBackend s).2 := by
  rcases x with e | m
  · simp [isDiscarded] at hx
  · cases m <;> simp [isDiscarded] at hx <;> simp [ShardImpl.authLoop]

/-- The outcome after one more item in front depends on the rest of the input
only through the outcome on it. -/
theorem authLoop_cons_congr (authBackend : Nat → List Nat → Option GoError)
    (x : Received) (s t : List Received)
    (h : (ShardImpl.authLoop authBackend s).2 = (ShardImpl.authLoop authBackend t).2) :
    (ShardImpl.authLoop authBackend (x :: s)).2 =
      (ShardImpl.authLoop authBackend (x :: t)).2 := by
  rcases x with e | m
  · simp [ShardImpl.authLoop]
  · cases m with
    | Authentication a salt =>
        cases hab : authBackend a salt <;> simp [ShardImpl.authLoop, hab, h]
    | _ => simp [ShardImpl.authLoop, h]

/-- Dropping the discarded messages from the input does not change the
outcome of the loop. -/
theorem authLoop_filter (authBackend : Nat → List Nat → Option GoError) (s : List Received) :
    (ShardImpl.authLoop authBackend (s.filter (fun x => !isDiscarded x))).2 =
      (ShardImpl.authLoop authBackend s).2 := by
  induction s with
  | nil => rfl
  | cons x s ih =>
      cases hx : isDiscarded x with
      | true =>
          rw [List.filter_cons_of_neg (by simp [hx]), ih,
            authLoop_cons_discarded authBackend x s hx]
      | false =>
          rw [List.filter_cons_of_pos (by simp [hx])]
          exact authLoop_cons_congr authBackend x _ _ ih

/-- The loop ends with success exactly when the input holds a
`ReadyForQuery` preceded only by items that keep it reading. -/
theorem authLoop_success_iff (authBackend : Nat → List Nat → Option GoError)
    (s : List Received) :
    (ShardImpl.authLoop authBackend s).2 = .returned none ↔
      ∃ pre rest, s = pre ++ .ok .ReadyForQuery :: rest ∧
        ∀ x ∈ pre, keepsReading authBackend x = true := by
  constructor
  · induction s with
    | nil => simp [ShardImpl.authLoop]
    | cons x s ih =>
        intro h
        by_cases hk : keepsReading authBackend x = true
        · have hstep : (ShardImpl.authLoop authBackend (x :: s)).2 =
              (ShardImpl.authLoop authBackend s).2 := by
            have := authLoop_append authBackend [x] s (by simpa using hk)
            simpa using congrArg Prod.snd this
          obtain ⟨pre, rest, hs, hpre⟩ := ih (hstep ▸ h)
          refine ⟨x :: pre, rest, by simp [hs], ?_⟩
          intro y hy
          rcases List.mem_cons.mp hy with rfl | hy
          · exact hk
          · exact hpre y hy
        · rcases x with e | m
          · simp [ShardImpl.authLoop] at h
          · cases m with
            | ReadyForQuery => exact ⟨[], s, rfl, by simp⟩
            | ErrorResponse c m => simp [ShardImpl.authLoop] at h
            | Authentication a salt =>
                cases hab : authBackend a salt with
                | none => simp [keepsReading, hab] at hk
                | some e => simp [ShardImpl.authLoop, hab] at h
            | _ => simp [keepsReading] at hk
  · rintro ⟨pre, rest, rfl, hpre⟩
    rw [authLoop_append authBackend pre _ hpre]
    simp [ShardImpl.authLoop]

/-- C3: `Auth` returns `nil` exactly when the startup message was sent and the
input holds a `ReadyForQuery` preceded only by items that keep the loop
reading (so it is the first one); and two inputs that differ only by
`ParameterStatus` and `BackendKeyData` messages, inserted or deleted anywhere,
give the same outcome. -/
theorem auth_success_and_discards (authBackend : Nat → List Nat → Option GoError)
    (sh : ShardImpl) (sm : StartupMessage) :
    ((sh.Auth authBackend sm).outcome = .returned none ↔
      sh.pgconn.SendErr = none ∧
      ∃ pre rest, sh.pgconn.incoming = pre ++ .ok .ReadyForQuery :: rest ∧
        ∀ x ∈ pre, keepsReading authBackend x = true) ∧
    (∀ sh2 : ShardImpl, sh2.pgconn.SendErr = sh.pgconn.SendErr →
      sh2.pgconn.incoming.filter (fun x => !isDiscarded x) =
        sh.pgconn.incoming.filter (fun x => !isDiscarded x) →
      (sh2.Auth authBackend sm).outcome = (sh.Auth authBackend sm).outcome) := by
  constructor
  · unfold ShardImpl.Auth
    cases hs : sh.pgconn.SendErr with
    | some err => simp
    | none => simpa using authLoop_success_iff authBackend sh.pgconn.incoming
  · intro sh2 hsend hfil
    unfold ShardImpl.Auth
    rw [hsend]
    cases sh.pgconn.SendErr with
    | some err => rfl
    | none =>
        show (ShardImpl.authLoop authBackend sh2.pgconn.incoming).2 =
          (ShardImpl.authLoop authBackend sh.pgconn.incoming).2
        rw [← authLoop_filter authBackend sh2.pgconn.incoming, hfil, authLoop_filter]

/-- C3 (witness): the accepting backend with and without its discarded
messages; both runs succeed. -/
theorem auth_success_and_discards_witness :
    (acceptedShardBare.Auth acceptAll acceptedShard.ConstructSMh).outcome =
      (acceptedShard.Auth acceptAll acceptedShard.ConstructSMh).outcome ∧
    (acceptedShard.Auth acceptAll acceptedShard.ConstructSMh).outcome = .returned none :=
  ⟨(auth_success_and_discards acceptAll acceptedShard acceptedShard.ConstructSMh).2
      acceptedShardBare rfl rfl,
   rfl⟩

/-! ## Theorems: startup message -/

/-- C4 (counterexample): for the configuration `u1`/`db1`, the startup message
does not carry `application_name = spqr`. -/
theorem constructSMh_application_name_not_spqr :
    (ShardImpl.ConstructSMh rejectedShard).Parameters.lookup "application_name" ≠
      some "spqr" := by
  decide

/-- C4 (amended): the startup message built by `ConstructSMh` has protocol
version 3.0 and exactly the four parameters `user = cfg.ConnUsr`,
`database = cfg.ConnDB`, `application_name = app`, `client_encoding = UTF8`;
and once the connection is set up, `NewShard` sends that message and no other
startup message. -/
theorem constructSMh_parameters (sh : ShardImpl) :
    (∀ k : String, sh.ConstructSMh.Parameters.lookup k =
      if k = "application_name" then some "app"
      else if k = "client_encoding" then some "UTF8"
      else if k = "user" then some sh.cfg.ConnUsr
      else if k = "database" then some sh.cfg.ConnDB
      else none) ∧
    sh.ConstructSMh.Parameters.length = 4 ∧
    sh.ConstructSMh.ProtocolVersion = ProtocolVersionNumber ∧
    (∀ (authBackend : Nat → List Nat → Option GoError) (env : DialEnv),
      env.connectErr = none → env.NewPgConn = .ok sh.pgconn →
      (NewShard authBackend env sh.name sh.cfg).1 = [sh.ConstructSMh]) := by
  refine ⟨?_, rfl, rfl, ?_⟩
  · intro k
    simp only [ShardImpl.ConstructSMh, List.lookup]
    by_cases h1 : k = "application_name"
    · simp [h1]
    have e1 : (k == "application_name") = false := by simpa using h1
    by_cases h2 : k = "client_encoding"
    · simp [h2]
    have e2 : (k == "client_encoding") = false := by simpa using h2
    by_cases h3 : k = "user"
    · simp [h3]
    have e3 : (k == "user") = false := by simpa using h3
    by_cases h4 : k = "database"
    · simp [h4]
    have e4 : (k == "database") = false := by simpa using h4
    simp [h1, h2, h3, h4, e1, e2, e3, e4]
  · intro authBackend env hc hp
    unfold NewShard
    simp only [hc, hp]
    cases h : (ShardImpl.Auth authBackend
        { cfg := sh.cfg, name := sh.name, pgconn := sh.pgconn }
        (ShardImpl.ConstructSMh
          { cfg := sh.cfg, name := sh.name, pgconn := sh.pgconn })).outcome with
    | waiting => simp [ShardImpl.Auth, ShardImpl.ConstructSMh]; split <;> rfl
    | returned e =>
        cases e <;> (simp [ShardImpl.Auth, ShardImpl.ConstructSMh]; split <;> rfl)

/-- C4 (witness): `NewShard` on the accepting backend sends the startup
message with `application_name = app`. -/
theorem constructSMh_parameters_witness :
    (NewShard acceptAll { connectErr := none, NewPgConn := .ok acceptedShard.pgconn }
      acceptedShard.name acceptedShard.cfg).1 =
      [{ ProtocolVersion := 196608,
         Parameters := [("application_name", "app"), ("client_encoding", "UTF8"),
           ("user", "u1"), ("database", "db1")] }] :=
  (constructSMh_parameters acceptedShard).2.2.2 acceptAll
    { connectErr := none, NewPgConn := .ok acceptedShard.pgconn } rfl rfl

/-! ## Theorems: console replies -/

/-- The logging send loop records one send per message, in order. -/
theorem sendLogging_calls (cl : Client) (msgs : List BackendMessage) :
    (sendLogging cl msgs).calls = cl.calls ++ msgs.map ClientCall.Send := by
  induction msgs generalizing cl with
  | nil => simp [sendLogging]
  | cons m rest ih => simp [sendLogging, ih, Client.call]

/-- The logging send loop leaves the client's script unchanged. -/
theorem sendLogging_fails (cl : Client) (msgs : List BackendMessage) :
    (sendLogging cl msgs).fails = cl.fails := by
  induction msgs generalizing cl with
  | nil => rfl
  | cons m rest ih => simp [sendLogging, ih, Client.call]

/-- The returning send loop leaves the client's script unchanged. -/
theorem sendOrReturn_fails (cl : Client) (msgs : List BackendMessage) :
    (sendOrReturn cl msgs).1.fails = cl.fails := by
  induction msgs generalizing cl with
  | nil => rfl
  | cons m rest ih =>
      unfold sendOrReturn
      cases h : cl.fails cl.calls.length <;> simp [Client.call, h, ih]

/-- On a client whose calls never fail, the returning send loop sends every
message and returns no error. -/
theorem sendOrReturn_of_no_failure (cl : Client) (msgs : List BackendMessage)
    (hsend : ∀ n, cl.fails n = none) :
    (sendOrReturn cl msgs).2 = none ∧
    (sendOrReturn cl msgs).1.calls = cl.calls ++ msgs.map ClientCall.Send := by
  induction msgs generalizing cl with
  | nil => simp [sendOrReturn]
  | cons m rest ih =>
      unfold sendOrReturn
      simp only [Client.call, hsend]
      have := ih { cl with calls := cl.calls ++ [ClientCall.Send m] } hsend
      simpa using this

/-- The handlers `Pools` and `Databases` send a row set with a single row. -/
theorem pools_databases_calls (cl : Client) :
    (∃ new, (Local.Pools cl).1.calls = cl.calls ++ new ∧ IsRowSet new) ∧
    (∃ new, (Local.Databases cl).1.calls = cl.calls ++ new ∧ IsRowSet new) := by
  constructor
  · exact ⟨_, by simp only [Local.Pools, sendLogging_calls]; rfl,
      ⟨textColumn "show pools", [.lit "show pools"], .lit "", rfl⟩⟩
  · exact ⟨_, by simp only [Local.Databases, sendLogging_calls]; rfl,
      ⟨textColumn "show dbs", [.lit "show dbs"], .lit "", rfl⟩⟩

/-- The sends made by the listing handlers after the `RowDescription`: one
`DataRow` per listed value, the row `local node`, `CommandComplete` and
`ReadyForQuery`. -/
theorem listing_tail_calls (cl : Client) (vals : List Bytes) :
    (sendLogging
      ((sendLogging cl (vals.map fun v => BackendMessage.DataRow [v])).call
        (.Send (.DataRow [.sprintf "local node" []]))).1
      [.CommandComplete (.lit "SELECT 1"), .ReadyForQuery]).calls =
    cl.calls ++ ((vals ++ [Bytes.sprintf "local node" []]).map
        (fun v => ClientCall.Send (.DataRow [v])) ++
      [ClientCall.Send (.CommandComplete (.lit "SELECT 1")), ClientCall.Send .ReadyForQuery]) := by
  simp [sendLogging_calls, Client.call, List.map_map, Function.comp_def]

/-- C5 (counterexample): for `SHOW key_ranges` on a console whose query router
fails to list the key ranges, with every send succeeding, the calls made on
the client are a single `RowDescription` send, which is not a row set ended by
`CommandComplete` and `ReadyForQuery`. -/
theorem show_key_ranges_failure_not_row_set :
    (Local.ProcessQuery demoDeps failingConsole "SHOW key_ranges" freshClient).1.2.calls =
      [ClientCall.Send (.RowDescription [textColumn "key ranges"])] ∧
    ¬ IsRowSet
      (Local.ProcessQuery demoDeps failingConsole "SHOW key_ranges" freshClient).1.2.calls := by
  have h : (Local.ProcessQuery demoDeps failingConsole "SHOW key_ranges" freshClient).1.2.calls =
      [ClientCall.Send (.RowDescription [textColumn "key ranges"])] := by
    simp [Local.ProcessQuery, demoDeps, demoParse, failingConsole, freshClient,
      spqrparser.ShowPoolsStr, spqrparser.ShowDatabasesStr, spqrparser.ShowShardsStr,
      spqrparser.ShowKeyRangesStr, Local.showResult, Local.KeyRanges, sendOrReturn,
      Client.call, routingMapRouter]
  refine ⟨h, ?_⟩
  rw [h]
  rintro ⟨f, rows, tag, hEq⟩
  have hlen := congrArg List.length hEq
  simp at hlen

/-- On a client whose sends succeed, `Shards` returns `nil` after sending a
row set. -/
theorem shards_calls {σ : Type} (Qrouter : QueryRouter σ) (q : σ) (cl : Client)
    (hsend : ∀ n, cl.fails n = none) :
    (Local.Shards Qrouter q cl).2 = none ∧
    ∃ new, (Local.Shards Qrouter q cl).1.2.calls = cl.calls ++ new ∧ IsRowSet new := by
  obtain ⟨h1, h2⟩ := sendOrReturn_of_no_failure cl
    [.RowDescription [textColumn "shards"]] hsend
  unfold Local.Shards
  cases hr : sendOrReturn cl [.RowDescription [textColumn "shards"]] with
  | mk cl1 e =>
      rw [hr] at h1 h2
      simp only at h1 h2
      subst h1
      refine ⟨rfl, _, ?_, ⟨textColumn "shards",
        (Qrouter.Shards q).2.map (fun shard => Bytes.sprintf "shard with ID %s" [.str shard]) ++
          [Bytes.sprintf "local node" []], .lit "SELECT 1", rfl⟩⟩
      simp [sendLogging_calls, Client.call, h2, List.map_map, Function.comp_def]

/-- On a client whose sends succeed, `KeyRanges` sends a row set and returns
`nil` when the query router lists the key ranges, and sends only the
`RowDescription` and returns the router's error when it does not. -/
theorem keyRanges_calls {σ : Type} (Qrouter : QueryRouter σ) (q : σ) (cl : Client)
    (hsend : ∀ n, cl.fails n = none) :
    (∀ krs, (Qrouter.KeyRanges q).2 = .ok krs →
      (Local.KeyRanges Qrouter q cl).2 = none ∧
      ∃ new, (Local.KeyRanges Qrouter q cl).1.2.calls = cl.calls ++ new ∧ IsRowSet new) ∧
    (∀ err, (Qrouter.KeyRanges q).2 = .error err →
      (Local.KeyRanges Qrouter q cl).2 = some err ∧
      (Local.KeyRanges Qrouter q cl).1.2.calls =
        cl.calls ++ [ClientCall.Send (.RowDescription [textColumn "key ranges"])]) := by
  obtain ⟨h1, h2⟩ := sendOrReturn_of_no_failure cl
    [.RowDescription [textColumn "key ranges"]] hsend
  unfold Local.KeyRanges
  cases hr : sendOrReturn cl [.RowDescription [textColumn "key ranges"]] with
  | mk cl1 e =>
      rw [hr] at h1 h2
      simp only at h1 h2
      subst h1
      cases hk : Qrouter.KeyRanges q with
      | mk q1 res =>
          cases res with
          | error err0 =>
              refine ⟨fun krs h => by simp at h, fun err h => ?_⟩
              simp only [Except.error.injEq] at h
              subst h
              exact ⟨rfl, by simpa using h2⟩
          | ok krs0 =>
              refine ⟨fun krs _ => ?_, fun err h => by simp at h⟩
              refine ⟨rfl, _, ?_, ⟨textColumn "key ranges",
                krs0.map (fun keyRange => Bytes.sprintf "key range %v mapped to shard %s"
                  [.str keyRange.ID, .str keyRange.ShardID]) ++
                  [Bytes.sprintf "local node" []], .lit "SELECT 1", rfl⟩⟩
              simp [sendLogging_calls, Client.call, h2, List.map_map, Function.comp_def]

/-- C5 (amended): with every send to the client succeeding, `SHOW pools`,
`SHOW databases` and `SHOW shards` always, and `SHOW key_ranges` whenever the
query router lists the key ranges, make on the client exactly the sends of one
`RowDescription` with one field, `DataRow`s with one value each, one
`CommandComplete` and one `ReadyForQuery`, and return `nil`.  When the query
router fails to list the key ranges, `SHOW key_ranges` sends only the
`RowDescription` and returns the router's error; when it fails to list the
sharding rules, `SHOW sharding_columns` sends nothing and returns the error. -/
theorem show_reply_row_set {σ : Type} (deps : ConsoleDeps) (c : Local σ) (cl : Client)
    (q : String) (stmt : spqrparser.Show)
    (hparse : deps.Parse q = .ok (.Show stmt)) (hsend : ∀ n, cl.fails n = none) :
    (stmt.Cmd = spqrparser.ShowPoolsStr ∨ stmt.Cmd = spqrparser.ShowDatabasesStr ∨
        stmt.Cmd = spqrparser.ShowShardsStr →
      (Local.ProcessQuery deps c q cl).2 = .returned none ∧
      ∃ new, (Local.ProcessQuery deps c q cl).1.2.calls = cl.calls ++ new ∧ IsRowSet new) ∧
    (stmt.Cmd = spqrparser.ShowKeyRangesStr →
      (∀ krs, (c.Qrouter.KeyRanges c.qstate).2 = .ok krs →
        (Local.ProcessQuery deps c q cl).2 = .returned none ∧
        ∃ new, (Local.ProcessQuery deps c q cl).1.2.calls = cl.calls ++ new ∧ IsRowSet new) ∧
      (∀ err, (c.Qrouter.KeyRanges c.qstate).2 = .error err →
        (Local.ProcessQuery deps c q cl).2 = .returned (some err) ∧
        (Local.ProcessQuery deps c q cl).1.2.calls =
          cl.calls ++ [ClientCall.Send (.RowDescription [textColumn "key ranges"])])) ∧
    (stmt.Cmd = spqrparser.ShowShardingColumns →
      ∀ err, (c.Qrouter.ListShardingRules c.qstate).2 = .error err →
        (Local.ProcessQuery deps c q cl).2 = .returned (some err) ∧
        (Local.ProcessQuery deps c q cl).1.2.calls = cl.calls) := by
  refine ⟨?_, ?_, ?_⟩
  · rintro (h | h | h)
    · have := (pools_databases_calls cl).1
      simpa [Local.ProcessQuery, hparse, h, Local.Pools] using this
    · have := (pools_databases_calls cl).2
      simpa [Local.ProcessQuery, hparse, h, Local.Databases, spqrparser.ShowPoolsStr,
        spqrparser.ShowDatabasesStr] using this
    · have := shards_calls c.Qrouter c.qstate cl hsend
      simpa [Local.ProcessQuery, hparse, h, Local.showResult, spqrparser.ShowPoolsStr,
        spqrparser.ShowDatabasesStr, spqrparser.ShowShardsStr] using this
  · intro h
    have := keyRanges_calls c.Qrouter c.qstate cl hsend
    simpa [Local.ProcessQuery, hparse, h, Local.showResult, spqrparser.ShowPoolsStr,
      spqrparser.ShowDatabasesStr, spqrparser.ShowShardsStr,
      spqrparser.ShowKeyRangesStr] using this
  · intro h err herr
    simp only [Local.ProcessQuery, hparse, h, Local.showResult, spqrparser.ShowPoolsStr,
      spqrparser.ShowDatabasesStr, spqrparser.ShowShardsStr, spqrparser.ShowKeyRangesStr,
      spqrparser.ShowShardingColumns, Local.ShardingColumns]
    cases hl : c.Qrouter.ListShardingRules c.qstate with
    | mk q1 res =>
        rw [hl] at herr
        simp only at herr
        subst herr
        simp

/-- C5 (witness): `SHOW shards` on the console over the empty routing map. -/
theorem show_reply_row_set_witness :
    (Local.ProcessQuery demoDeps healthyConsole "SHOW shards" freshClient).2 = .returned none ∧
    ∃ new, (Local.ProcessQuery demoDeps healthyConsole "SHOW shards" freshClient).1.2.calls =
      freshClient.calls ++ new ∧ IsRowSet new :=
  (show_reply_row_set demoDeps healthyConsole freshClient "SHOW shards" { Cmd := "shards" }
    (by simp [demoDeps, demoParse]) (fun _ => rfl)).1 (Or.inr (Or.inr rfl))

/-- C6: when the statement is one of the five mutation commands and
`ProcessQuery` (hence the handler) returns `nil`, the calls made on the client
are exactly four sends, in order: a `RowDescription` with one field, a
`DataRow` with one value, a `CommandComplete` and a `ReadyForQuery`. -/
theorem mutation_reply_four_messages {σ : Type} (deps : ConsoleDeps) (c : Local σ)
    (cl : Client) (q : String) (tstmt : spqrparser.Statement)
    (hparse : deps.Parse q = .ok tstmt) (hmut : isMutation tstmt = true)
    (hok : (Local.ProcessQuery deps c q cl).2 = .returned none) :
    ∃ new, (Local.ProcessQuery deps c q cl).1.2.calls = cl.calls ++ new ∧
      IsOneRowReply new := by
  cases tstmt with
  | Show stmt => simp [isMutation] at hmut
  | Shutdown => simp [isMutation] at hmut
  | Other tag => simp [isMutation] at hmut
  | SplitKeyRange stmt =>
      simp only [Local.ProcessQuery, hparse, Local.SplitKeyRange] at hok ⊢
      cases hs : c.Qrouter.Split c.qstate
          { Bound := stmt.Border, SourceID := stmt.KeyRangeFromID,
            Krid := stmt.KeyRangeID } with
      | mk q1 e =>
          rw [hs] at hok
          cases e with
          | some err => simp [Local.dumpIfError] at hok
          | none =>
              exact ⟨_, by simp only [Local.dumpIfError, sendLogging_calls]; rfl,
                ⟨_, _, _, rfl⟩⟩
  | Lock stmt =>
      simp only [Local.ProcessQuery, hparse, Local.LockKeyRange] at hok ⊢
      cases hs : c.Qrouter.Lock c.qstate stmt.KeyRangeID with
      | mk q1 e =>
          rw [hs] at hok
          cases e with
          | some err => simp [Local.dumpIfError] at hok
          | none =>
              exact ⟨_, by simp only [Local.dumpIfError, sendLogging_calls]; rfl,
                ⟨_, _, _, rfl⟩⟩
  | ShardingColumn stmt =>
      exact ⟨_, by
        simp only [Local.ProcessQuery, hparse, Local.AddShardingColumn, Local.dumpIfError,
          sendLogging_calls]; rfl, ⟨_, _, _, rfl⟩⟩
  | AddKeyRange stmt =>
      exact ⟨_, by
        simp only [Local.ProcessQuery, hparse, Local.AddKeyRange, Local.dumpIfError,
          sendLogging_calls]; rfl, ⟨_, _, _, rfl⟩⟩
  | Shard stmt =>
      exact ⟨_, by
        simp only [Local.ProcessQuery, hparse, Local.AddShard, Local.dumpIfError,
          sendLogging_calls]; rfl, ⟨_, _, _, rfl⟩⟩

/-- C6 (witness): `LOCK KEY RANGE kr1` on the console over the empty routing
map. -/
theorem mutation_reply_four_messages_witness :
    ∃ new, (Local.ProcessQuery demoDeps healthyConsole "LOCK KEY RANGE kr1"
        freshClient).1.2.calls = freshClient.calls ++ new ∧ IsOneRowReply new :=
  mutation_reply_four_messages demoDeps healthyConsole freshClient "LOCK KEY RANGE kr1"
    (.Lock { KeyRangeID := "kr1" }) (by simp [demoDeps, demoParse]) rfl
    (by simp [Local.ProcessQuery, demoDeps, demoParse, healthyConsole, Local.LockKeyRange,
      routingMapRouter, Local.dumpIfError])

/-! ## Theorems: console session loop -/

/-- The handler `Shards` leaves the client's script unchanged. -/
theorem shards_fails {σ : Type} (Qrouter : QueryRouter σ) (q : σ) (cl : Client) :
    (Local.Shards Qrouter q cl).1.2.fails = cl.fails := by
  have hf := sendOrReturn_fails cl [.RowDescription [textColumn "shards"]]
  unfold Local.Shards
  split <;> rename_i h <;> rw [h] at hf <;> simp at hf <;>
    simp [hf, sendLogging_fails, Client.call]

/-- The handler `KeyRanges` leaves the client's script unchanged. -/
theorem keyRanges_fails {σ : Type} (Qrouter : QueryRouter σ) (q : σ) (cl : Client) :
    (Local.KeyRanges Qrouter q cl).1.2.fails = cl.fails := by
  have hf := sendOrReturn_fails cl [.RowDescription [textColumn "key ranges"]]
  unfold Local.KeyRanges
  split <;> rename_i h <;> rw [h] at hf <;> simp at hf
  · simp [hf]
  · split <;> simp [hf, sendLogging_fails, Client.call]

/-- The handler `ShardingColumns` leaves the client's script unchanged. -/
theorem shardingColumns_fails {σ : Type} (Qrouter : QueryRouter σ) (q : σ) (cl : Client) :
    (Local.ShardingColumns Qrouter q cl).1.2.fails = cl.fails := by
  unfold Local.ShardingColumns
  split <;> simp [sendLogging_fails, Client.call]

/-- The tail of the mutation cases keeps the handler's client. -/
theorem dumpIfError_client {σ : Type} (c : Local σ) (q : String)
    (r : (σ × Client) × Option GoError) :
    (c.dumpIfError q r).1.2 = r.1.2 ∧ (c.dumpIfError q r).2 = .returned r.2 := by
  rcases r with ⟨⟨q1, cl1⟩, e⟩
  cases e <;> simp [Local.dumpIfError]

/-- `ProcessQuery` leaves the client's script unchanged. -/
theorem processQuery_fails {σ : Type} (deps : ConsoleDeps) (c : Local σ) (q : String)
    (cl : Client) : (Local.ProcessQuery deps c q cl).1.2.fails = cl.fails := by
  unfold Local.ProcessQuery
  cases deps.Parse q with
  | error e => rfl
  | ok tstmt =>
      cases tstmt with
      | Show stmt =>
          simp only []
          split_ifs
          · simp [Local.Pools, sendLogging_fails]
          · simp [Local.Databases, sendLogging_fails]
          · simpa [Local.showResult] using shards_fails c.Qrouter c.qstate cl
          · simpa [Local.showResult] using keyRanges_fails c.Qrouter c.qstate cl
          · simpa [Local.showResult] using shardingColumns_fails c.Qrouter c.qstate cl
          · rfl
      | SplitKeyRange stmt =>
          simp only [(dumpIfError_client c q _).1, Local.SplitKeyRange]
          split <;> simp [sendLogging_fails]
      | Lock stmt =>
          simp only [(dumpIfError_client c q _).1, Local.LockKeyRange]
          split <;> simp [sendLogging_fails]
      | ShardingColumn stmt =>
          simp [(dumpIfError_client c q _).1, Local.AddShardingColumn, sendLogging_fails]
      | AddKeyRange stmt =>
          simp [(dumpIfError_client c q _).1, Local.AddKeyRange, sendLogging_fails]
      | Shard stmt =>
          simp [(dumpIfError_client c q _).1, Local.AddShard, sendLogging_fails]
      | Shutdown =>
          simp only []
          split <;> rfl
      | Other tag =>
          simp only [Client.call]
          split <;> rename_i h <;> simp at h <;> simp [← h.1]

/-- The tail of the mutation cases leaves the script of `stchan` unchanged. -/
theorem dumpIfError_stchanTaken {σ : Type} (c : Local σ) (q : String)
    (r : (σ × Client) × Option GoError) :
    (c.dumpIfError q r).1.1.stchanTaken = c.stchanTaken := by
  rcases r with ⟨⟨q1, cl1⟩, e⟩
  cases e <;> rfl

/-- `ProcessQuery` leaves the script of `stchan` unchanged. -/
theorem processQuery_stchanTaken {σ : Type} (deps : ConsoleDeps) (c : Local σ) (q : String)
    (cl : Client) : (Local.ProcessQuery deps c q cl).1.1.stchanTaken = c.stchanTaken := by
  unfold Local.ProcessQuery
  cases deps.Parse q with
  | error e => rfl
  | ok tstmt =>
      cases tstmt with
      | Show stmt =>
          simp only []
          split_ifs <;> rfl
      | SplitKeyRange stmt => exact dumpIfError_stchanTaken c q _
      | Lock stmt => exact dumpIfError_stchanTaken c q _
      | ShardingColumn stmt => exact dumpIfError_stchanTaken c q _
      | AddKeyRange stmt => exact dumpIfError_stchanTaken c q _
      | Shard stmt => exact dumpIfError_stchanTaken c q _
      | Shutdown =>
          simp only []
          split <;> rfl
      | Other tag =>
          simp only []
          split <;> rfl

/-- On a client whose calls never fail, `ProcessQuery` does not end in
`Fatal`: it returns, or it stays blocked in the send on `stchan`, and the
latter only for a `SHUTDOWN` statement whose signal no receiver takes. -/
theorem processQuery_returns_or_blocks {σ : Type} (deps : ConsoleDeps) (c : Local σ)
    (q : String) (cl : Client) (hsend : ∀ n, cl.fails n = none) :
    (∃ e, (Local.ProcessQuery deps c q cl).2 = .returned e) ∨
    ((Local.ProcessQuery deps c q cl).2 = .blocked ∧
      deps.Parse q = .ok .Shutdown ∧ c.stchanTaken c.stchan = false) := by
  unfold Local.ProcessQuery
  cases deps.Parse q with
  | error e => exact Or.inl ⟨_, rfl⟩
  | ok tstmt =>
      cases tstmt with
      | Show stmt =>
          simp only []
          split_ifs <;> exact Or.inl ⟨_, rfl⟩
      | SplitKeyRange stmt => exact Or.inl ⟨_, (dumpIfError_client c q _).2⟩
      | Lock stmt => exact Or.inl ⟨_, (dumpIfError_client c q _).2⟩
      | ShardingColumn stmt => exact Or.inl ⟨_, (dumpIfError_client c q _).2⟩
      | AddKeyRange stmt => exact Or.inl ⟨_, (dumpIfError_client c q _).2⟩
      | Shard stmt => exact Or.inl ⟨_, (dumpIfError_client c q _).2⟩
      | Shutdown =>
          cases ht : c.stchanTaken c.stchan with
          | true => exact Or.inl ⟨none, by simp [ht]⟩
          | false => exact Or.inr ⟨by simp [ht], rfl, rfl⟩
      | Other tag => simp [Client.call, hsend]

/-- On a client whose calls never fail and a console whose signals on `stchan`
are all taken, `ProcessQuery` returns. -/
theorem processQuery_returns {σ : Type} (deps : ConsoleDeps) (c : Local σ) (q : String)
    (cl : Client) (hsend : ∀ n, cl.fails n = none) (htaken : ∀ n, c.stchanTaken n = true) :
    ∃ e, (Local.ProcessQuery deps c q cl).2 = .returned e := by
  rcases processQuery_returns_or_blocks deps c q cl hsend with h | ⟨-, -, h⟩
  · exact h
  · rw [htaken] at h
    exact absurd h (by simp)

/-- Whenever the loop of `Serve` returns, it returns the error of a `Receive`,
and every `Receive` before that one succeeded. -/
theorem serveLoop_returned {σ : Type} (deps : ConsoleDeps)
    (input : List (Except GoError FrontendMessage)) (c : Local σ) (cl : Client)
    (err : GoError) (h : (Local.serveLoop deps input c cl).2 = .returned err) :
    ∃ pre rest, input = pre ++ .error err :: rest ∧ ∀ x ∈ pre, ∃ m, x = .ok m := by
  induction input generalizing c cl with
  | nil => simp [Local.serveLoop] at h
  | cons x input ih =>
      have step : ∀ (c1 : Local σ) (cl1 : Client) (m : FrontendMessage), x = .ok m →
          (Local.serveLoop deps input c1 cl1).2 = .returned err →
          ∃ pre rest, x :: input = pre ++ .error err :: rest ∧ ∀ y ∈ pre, ∃ m, y = .ok m := by
        intro c1 cl1 m hx h1
        obtain ⟨pre, rest, hin, hpre⟩ := ih c1 cl1 h1
        refine ⟨x :: pre, rest, by simp [hin], ?_⟩
        intro y hy
        rcases List.mem_cons.mp hy with rfl | hy
        · exact ⟨m, hx⟩
        · exact hpre y hy
      rcases x with e | m
      · simp only [Local.serveLoop, ServeOutcome.returned.injEq] at h
        subst h
        exact ⟨[], input, rfl, by simp⟩
      · cases m with
        | Query s =>
            simp only [Local.serveLoop] at h
            split at h
            · simp at h
            · simp at h
            · exact step _ _ _ rfl h
            · exact step _ _ _ rfl h
        | Terminate => exact step c cl _ rfl (by simpa [Local.serveLoop] using h)
        | Unknown tag => exact step c cl _ rfl (by simpa [Local.serveLoop] using h)

/-- On a client whose calls never fail and a console whose signals on `stchan`
are all taken, the loop of `Serve` gets through any number of received
messages, whatever `ProcessQuery` answers to the queries among them, and
returns the error of the first failing `Receive`. -/
theorem serveLoop_reaches_receive_error {σ : Type} (deps : ConsoleDeps)
    (pre : List FrontendMessage) (rest : List (Except GoError FrontendMessage))
    (err : GoError) (c : Local σ) (cl : Client) (hsend : ∀ n, cl.fails n = none)
    (htaken : ∀ n, c.stchanTaken n = true) :
    (Local.serveLoop deps (pre.map Except.ok ++ .error err :: rest) c cl).2 =
      .returned err := by
  induction pre generalizing c cl with
  | nil => simp [Local.serveLoop]
  | cons m pre ih =>
      cases m with
      | Query s =>
          obtain ⟨e, he⟩ := processQuery_returns deps c s cl hsend htaken
          have hf := processQuery_fails deps c s cl
          have ht := processQuery_stchanTaken deps c s cl
          simp only [List.map_cons, List.cons_append, Local.serveLoop]
          cases hr : Local.ProcessQuery deps c s cl with
          | mk st out =>
              rcases st with ⟨c1, cl1⟩
              rw [hr] at he hf ht
              simp only at he hf ht
              subst he
              cases e with
              | none => exact ih c1 cl1 (by simpa [hf] using hsend) (by simpa [ht] using htaken)
              | some e1 =>
                  exact ih c1 _ (by simpa [Client.call, hf] using hsend)
                    (by simpa [ht] using htaken)
      | Terminate => simpa [Local.serveLoop] using ih c cl hsend htaken
      | Unknown tag => simpa [Local.serveLoop] using ih c cl hsend htaken

/-- On a client whose calls never fail, the loop of `Serve` on received
messages followed by a failing `Receive` either returns that error or stays
blocked in the send on `stchan` made for a `SHUTDOWN` query. -/
theorem serveLoop_returns_or_blocks {σ : Type} (deps : ConsoleDeps)
    (pre : List FrontendMessage) (rest : List (Except GoError FrontendMessage))
    (err : GoError) (c : Local σ) (cl : Client) (hsend : ∀ n, cl.fails n = none) :
    (Local.serveLoop deps (pre.map Except.ok ++ .error err :: rest) c cl).2 = .returned err ∨
    ((Local.serveLoop deps (pre.map Except.ok ++ .error err :: rest) c cl).2 = .blocked ∧
      ∃ s, FrontendMessage.Query s ∈ pre ∧ deps.Parse s = .ok .Shutdown) := by
  induction pre generalizing c cl with
  | nil => simp [Local.serveLoop]
  | cons m pre ih =>
      have lift : ∀ (c1 : Local σ) (cl1 : Client), (∀ n, cl1.fails n = none) →
          (Local.serveLoop deps (pre.map Except.ok ++ .error err :: rest) c1 cl1).2 =
              .returned err ∨
          ((Local.serveLoop deps (pre.map Except.ok ++ .error err :: rest) c1 cl1).2 =
              .blocked ∧
            ∃ s, FrontendMessage.Query s ∈ m :: pre ∧ deps.Parse s = .ok .Shutdown) := by
        intro c1 cl1 h1
        rcases ih c1 cl1 h1 with h | ⟨h, s, hs, hp⟩
        · exact Or.inl h
        · exact Or.inr ⟨h, s, List.mem_cons_of_mem _ hs, hp⟩
      cases m with
      | Query s =>
          have hf := processQuery_fails deps c s cl
          have hout := processQuery_returns_or_blocks deps c s cl hsend
          simp only [List.map_cons, List.cons_append, Local.serveLoop]
          cases hr : Local.ProcessQuery deps c s cl with
          | mk st out =>
              rcases st with ⟨c1, cl1⟩
              rw [hr] at hf hout
              simp only at hf hout
              rcases hout with ⟨e, he⟩ | ⟨hb, hparse, -⟩
              · subst he
                cases e with
                | none => exact lift c1 cl1 (by simpa [hf] using hsend)
                | some e1 => exact lift c1 _ (by simpa [Client.call, hf] using hsend)
              · subst hb
                exact Or.inr ⟨rfl, s, List.mem_cons_self _ _, hparse⟩
      | Terminate => simpa [Local.serveLoop] using lift c cl hsend
      | Unknown tag => simpa [Local.serveLoop] using lift c cl hsend

/-- The greeting loop leaves the client's script unchanged, and is not fatal
on a client whose calls never fail. -/
theorem sendOrFatal_of_no_failure (cl : Client) (msgs : List BackendMessage)
    (hsend : ∀ n, cl.fails n = none) :
    (sendOrFatal cl msgs).2 = false ∧ (sendOrFatal cl msgs).1.fails = cl.fails := by
  induction msgs generalizing cl with
  | nil => simp [sendOrFatal]
  | cons m rest ih =>
      unfold sendOrFatal
      simp only [Client.call, hsend]
      have := ih { cl with calls := cl.calls ++ [ClientCall.Send m] } hsend
      simpa using this

/-- C7: in the session loop of the console,
(1) a query for which `ProcessQuery` returns an error does not end the loop:
    `ReplyErr` is called with the error text and the loop goes on with the
    next `Receive`;
(2) whenever `Serve` returns, what it returns is the error of a `Receive`, and
    all earlier `Receive` calls had succeeded;
(3) on a client whose calls never fail and a console whose signals on `stchan`
    are all taken, `Serve` does return that error: after any received
    messages, whatever `ProcessQuery` answered, the first failing `Receive`
    ends the session with its error;
(4) on a client whose calls never fail, whatever becomes of the signals, the
    only other end is that `Serve` stays blocked in the send on `stchan` made
    for a received `SHUTDOWN` query. -/
theorem serve_ends_only_on_receive_error {σ : Type} (deps : ConsoleDeps) (c : Local σ)
    (cl : Client) :
    (∀ (s : String) (rest : List (Except GoError FrontendMessage)) (c1 : Local σ)
        (cl1 : Client) (e : GoError),
      Local.ProcessQuery deps c s cl = ((c1, cl1), .returned (some e)) →
      Local.serveLoop deps (.ok (.Query s) :: rest) c cl =
        Local.serveLoop deps rest c1 (cl1.call (.ReplyErr e)).1 ∧
      (cl1.call (.ReplyErr e)).1.calls = cl1.calls ++ [ClientCall.ReplyErr e]) ∧
    (∀ (input : List (Except GoError FrontendMessage)) (err : GoError),
      (Local.Serve deps c cl input).2 = .returned err →
      ∃ pre rest, input = pre ++ .error err :: rest ∧ ∀ x ∈ pre, ∃ m, x = .ok m) ∧
    ((∀ n, cl.fails n = none) → (∀ n, c.stchanTaken n = true) →
      ∀ (pre : List FrontendMessage) (rest : List (Except GoError FrontendMessage))
        (err : GoError),
      (Local.Serve deps c cl (pre.map Except.ok ++ .error err :: rest)).2 =
        .returned err) ∧
    ((∀ n, cl.fails n = none) →
      ∀ (pre : List FrontendMessage) (rest : List (Except GoError FrontendMessage))
        (err : GoError),
      (Local.Serve deps c cl (pre.map Except.ok ++ .error err :: rest)).2 = .returned err ∨
      ((Local.Serve deps c cl (pre.map Except.ok ++ .error err :: rest)).2 = .blocked ∧
        ∃ s, FrontendMessage.Query s ∈ pre ∧ deps.Parse s = .ok .Shutdown)) := by
  have greet : ∀ (hsend : ∀ n, cl.fails n = none)
      (input : List (Except GoError FrontendMessage)),
      ∃ cl1, (∀ n, cl1.fails n = none) ∧
        Local.Serve deps c cl input = Local.serveLoop deps input c cl1 := by
    intro hsend input
    have hg := sendOrFatal_of_no_failure cl [
      .AuthenticationOk,
      .ParameterStatus "integer_datetimes" "on",
      .ParameterStatus "server_version" "console",
      .NoticeResponse greeting,
      .ReadyForQuery] hsend
    unfold Local.Serve
    split
    · rename_i cl1 h
      rw [h] at hg
      simp at hg
    · rename_i cl1 h
      rw [h] at hg
      have hg2 : cl1.fails = cl.fails := by simpa using hg
      exact ⟨cl1, by simpa [hg2] using hsend, rfl⟩
  refine ⟨?_, ?_, ?_, ?_⟩
  · intro s rest c1 cl1 e h
    exact ⟨by simp [Local.serveLoop, h], rfl⟩
  · intro input err h
    unfold Local.Serve at h
    split at h
    · simp at h
    · exact serveLoop_returned deps input c _ err h
  · intro hsend htaken pre rest err
    obtain ⟨cl1, h1, hEq⟩ := greet hsend (pre.map Except.ok ++ .error err :: rest)
    rw [hEq]
    exact serveLoop_reaches_receive_error deps pre rest err c cl1 h1 htaken
  · intro hsend pre rest err
    obtain ⟨cl1, h1, hEq⟩ := greet hsend (pre.map Except.ok ++ .error err :: rest)
    rw [hEq]
    exact serveLoop_returns_or_blocks deps pre rest err c cl1 h1

/-- A session on the console whose `stchan` nobody receives from: after a
`SHUTDOWN` query `Serve` stays blocked in the send, and the connection error
that follows is never read. -/
theorem serve_blocks_on_unreceived_shutdown :
    (Local.Serve demoDeps unattendedConsole freshClient
      [.ok (.Query "SHUTDOWN"), .error "EOF"]).2 = .blocked := by
  simp [Local.Serve, Local.serveLoop, sendOrFatal, Local.ProcessQuery, demoDeps, demoParse,
    unattendedConsole, failingConsole, freshClient, Client.call]

/-- C7 (witness): a session that receives an unparsable query, a failing
`SHOW key_ranges` and then loses its connection: `Serve` returns the
connection error, having answered both queries with `ReplyErr`. -/
theorem serve_ends_only_on_receive_error_witness :
    (Local.Serve demoDeps failingConsole freshClient
      ([FrontendMessage.Query "SELEKT", FrontendMessage.Query "SHOW key_ranges"].map Except.ok ++
        .error "EOF" :: [])).2 = .returned "EOF" :=
  (serve_ends_only_on_receive_error demoDeps failingConsole freshClient).2.2.1
    (fun _ => rfl) (fun _ => rfl) [.Query "SELEKT", .Query "SHOW key_ranges"] [] "EOF"

/-! ## Theorems: errors of the query router in the console -/

/-- C8 (the code at the failing input): on a console whose query router
rejects the rule, the key range and the shard, `ProcessQuery` returns `nil`
for `CREATE SHARDING COLUMN`, `ADD KEY RANGE` and `ADD SHARD`, the client gets
a row set whose row text embeds the router's error, followed by
`CommandComplete` and `ReadyForQuery`, and a session made of that one query
never calls `ReplyErr`. -/
theorem processQuery_swallows_router_error :
    (failingConsole.Qrouter.AddShardingRule failingConsole.qstate
        (shrule.NewShardingRule ["id"])).2 = some "sharding rule already present" ∧
    (Local.ProcessQuery demoDeps failingConsole "CREATE SHARDING COLUMN id" freshClient).2 =
      .returned none ∧
    (Local.ProcessQuery demoDeps failingConsole "CREATE SHARDING COLUMN id"
        freshClient).1.2.calls =
      [.Send (.RowDescription [textColumn "fortune"]),
       .Send (.DataRow [.sprintf "created sharding column %s, err %w"
         [.str "id", .err (some "sharding rule already present")]]),
       .Send (.CommandComplete (.lit "")),
       .Send .ReadyForQuery] ∧
    (Local.ProcessQuery demoDeps failingConsole "ADD KEY RANGE 1 10 sh1 kr1" freshClient).2 =
      .returned none ∧
    (Local.ProcessQuery demoDeps failingConsole "ADD KEY RANGE 1 10 sh1 kr1"
        freshClient).1.2.calls =
      [.Send (.RowDescription [textColumn "add key range"]),
       .Send (.DataRow [.sprintf "created key range from %d to %d, err %v"
         [.bytes [1], .bytes [10], .err (some "storage down")]]),
       .Send (.CommandComplete (.lit "")),
       .Send .ReadyForQuery] ∧
    (Local.ProcessQuery demoDeps failingConsole "ADD SHARD sh3" freshClient).2 =
      .returned none ∧
    (Local.ProcessQuery demoDeps failingConsole "ADD SHARD sh3" freshClient).1.2.calls =
      [.Send (.RowDescription [textColumn "add shard"]),
       .Send (.DataRow [.sprintf "created shard with name %s, %w"
         [.str "sh3", .err (some "storage down")]]),
       .Send (.CommandComplete (.lit "")),
       .Send .ReadyForQuery] ∧
    (∀ e, ClientCall.ReplyErr e ∉
      (Local.Serve demoDeps failingConsole freshClient
        [.ok (.Query "CREATE SHARDING COLUMN id"), .error "EOF"]).1.2.calls) := by
  refine ⟨?_, ?_, ?_, ?_, ?_, ?_, ?_, ?_⟩ <;>
    simp [Local.Serve, Local.serveLoop, sendOrFatal, Local.ProcessQuery, demoDeps, demoParse,
      failingConsole, freshClient, Local.dumpIfError, Local.AddShardingColumn,
      Local.AddKeyRange, Local.AddShard, sendLogging, Client.call, routingMapRouter,
      RoutingMap.addShardingRule, sameColumnSet, shrule.NewShardingRule]

/-! ## Theorems: gRPC facade -/

/-- C9 (the code at the failing input): for the request with `Krid = kr1` and
bound `[64]`, the split handed to the query router names `kr1` both as the new
range (`Krid`) and as the source range (`SourceID`). -/
theorem grpc_split_same_id_for_both_ranges :
    (LocalQrouterServer.SplitKeyRange routingMapRouter healthyConsole.qstate
      { Krid := "kr1", Bound := [64] }).1.splits =
      [{ Krid := "kr1", SourceID := "kr1", Bound := [64] }] := by
  simp [LocalQrouterServer.SplitKeyRange, routingMapRouter, healthyConsole]

/-- C10 (counterexample): on the routing map that holds the rule on `id`, the
request with the rules on `a` and on `id` returns an error, and the sharding
rules after the call are not those before it: the rule on `a` has been
added. -/
theorem addShardingRules_not_all_or_nothing :
    (LocalQrouterServer.AddShardingRules routingMapRouter failingConsole.qstate
      { Rules := [{ Columns := ["a"] }, { Columns := ["id"] }] }).2 =
      some "sharding rule already present" ∧
    (LocalQrouterServer.AddShardingRules routingMapRouter failingConsole.qstate
      { Rules := [{ Columns := ["a"] }, { Columns := ["id"] }] }).1.rules =
      [{ Columns := ["id"] }, { Columns := ["a"] }] ∧
    (LocalQrouterServer.AddShardingRules routingMapRouter failingConsole.qstate
      { Rules := [{ Columns := ["a"] }, { Columns := ["id"] }] }).1.rules ≠
      failingConsole.qstate.rules := by
  refine ⟨?_, ?_, ?_⟩ <;>
    simp [LocalQrouterServer.AddShardingRules, AddShardingRules.loop, routingMapRouter,
      RoutingMap.addShardingRule, failingConsole, sameColumnSet, shrule.NewShardingRule]

/-- The loop of `AddShardingRules` over the routing map: on success all rules
are appended in order; on error the rules before the first rejected one are. -/
theorem addShardingRules_loop_rules (rules : List protos.ShardingRule) (m : RoutingMap) :
    ((AddShardingRules.loop routingMapRouter rules m).2 = none →
      (AddShardingRules.loop routingMapRouter rules m).1.rules =
        m.rules ++ rules.map (fun rule => shrule.NewShardingRule rule.Columns)) ∧
    (∀ err, (AddShardingRules.loop routingMapRouter rules m).2 = some err →
      ∃ pre rule post, rules = pre ++ rule :: post ∧
        (AddShardingRules.loop routingMapRouter rules m).1.rules =
          m.rules ++ pre.map (fun rule => shrule.NewShardingRule rule.Columns) ∧
        (m.rules ++ pre.map (fun rule => shrule.NewShardingRule rule.Columns)).any
          (fun r => sameColumnSet r (shrule.NewShardingRule rule.Columns)) = true) := by
  induction rules generalizing m with
  | nil => simp [AddShardingRules.loop]
  | cons rule rules ih =>
      by_cases hdup : m.rules.any
          (fun r => sameColumnSet r (shrule.NewShardingRule rule.Columns)) = true
      · have hstep : AddShardingRules.loop routingMapRouter (rule :: rules) m =
            (m, some "sharding rule already present") := by
          simp [AddShardingRules.loop, routingMapRouter, RoutingMap.addShardingRule, hdup]
        rw [hstep]
        refine ⟨by simp, fun err _ => ⟨[], rule, rules, rfl, by simp, by simpa using hdup⟩⟩
      · have hstep : AddShardingRules.loop routingMapRouter (rule :: rules) m =
            AddShardingRules.loop routingMapRouter rules
              { m with rules := m.rules ++ [shrule.NewShardingRule rule.Columns] } := by
          simp [AddShardingRules.loop, routingMapRouter, RoutingMap.addShardingRule, hdup]
        rw [hstep]
        obtain ⟨ih1, ih2⟩ :=
          ih { m with rules := m.rules ++ [shrule.NewShardingRule rule.Columns] }
        refine ⟨fun h => by simpa using ih1 h, fun err h => ?_⟩
        obtain ⟨pre, r, post, hrules, hres, hany⟩ := ih2 err h
        exact ⟨rule :: pre, r, post, by simp [hrules], by simpa using hres,
          by simpa using hany⟩

/-- C10 (amended): over the routing map, when `AddShardingRules` returns
success every rule of the request has been appended to the sharding rules in
request order; when it returns an error, the rules of the request that precede
the first rejected rule have been appended in request order and stay in the
routing map, the rejected rule (a duplicate by column set of a rule then
present) and the rules after it have not. -/
theorem addShardingRules_adds_leading_rules (m : RoutingMap)
    (request : protos.AddShardingRuleRequest) :
    ((LocalQrouterServer.AddShardingRules routingMapRouter m request).2 = none →
      (LocalQrouterServer.AddShardingRules routingMapRouter m request).1.rules =
        m.rules ++ request.Rules.map (fun rule => shrule.NewShardingRule rule.Columns)) ∧
    (∀ err, (LocalQrouterServer.AddShardingRules routingMapRouter m request).2 = some err →
      ∃ pre rule post, request.Rules = pre ++ rule :: post ∧
        (LocalQrouterServer.AddShardingRules routingMapRouter m request).1.rules =
          m.rules ++ pre.map (fun rule => shrule.NewShardingRule rule.Columns) ∧
        (m.rules ++ pre.map (fun rule => shrule.NewShardingRule rule.Columns)).any
          (fun r => sameColumnSet r (shrule.NewShardingRule rule.Columns)) = true) :=
  addShardingRules_loop_rules request.Rules m

/-- C10 (witness): two fresh rules on the empty routing map are both added,
in request order. -/
theorem addShardingRules_adds_leading_rules_witness :
    (LocalQrouterServer.AddShardingRules routingMapRouter healthyConsole.qstate
      { Rules := [{ Columns := ["a"] }, { Columns := ["b"] }] }).1.rules =
      healthyConsole.qstate.rules ++ [{ Columns := ["a"] }, { Columns := ["b"] }] :=
  (addShardingRules_adds_leading_rules healthyConsole.qstate
    { Rules := [{ Columns := ["a"] }, { Columns := ["b"] }] }).1
    (by simp [LocalQrouterServer.AddShardingRules, AddShardingRules.loop, routingMapRouter,
      RoutingMap.addShardingRule, healthyConsole, sameColumnSet, shrule.NewShardingRule])

/-! ## Theorems: waiting for an operation -/

/-- The loop of `waitTilDone` returns `nil` exactly when the answers hold a
`DONE` poll, the first one, before which the failed polls did not use up the
retry budget left at `retries`. -/
theorem waitLoop_nil_iff (maxRetriesCount : Int) (s : List Polled) (retries : Int) :
    (waitTilDone.loop maxRetriesCount s retries).2 = .returned none ↔
      ∃ pre rest, s = pre ++ .ok .DONE :: rest ∧ (∀ x ∈ pre, isDonePoll x = false) ∧
        (pre.countP isFailedPoll = 0 ∨
          retries + (pre.countP isFailedPoll : Int) < maxRetriesCount) := by
  induction s generalizing retries with
  | nil => simp [waitTilDone.loop]
  | cons x s ih =>
      rcases x with e | st
      · by_cases h : retries + 1 ≥ maxRetriesCount
        · simp only [waitTilDone.loop, h, if_true]
          constructor
          · intro hc
            simp at hc
          · rintro ⟨pre, rest, hs, -, hcount⟩
            rcases List.cons_eq_append_iff.mp hs with ⟨-, h2⟩ | ⟨pre1, rfl, -⟩
            · simp at h2
            · simp [List.countP_cons, isFailedPoll] at hcount
              omega
        · simp only [waitTilDone.loop, h, if_false]
          rw [ih (retries + 1)]
          constructor
          · rintro ⟨pre, rest, rfl, hpre, hcount⟩
            refine ⟨.error e :: pre, rest, rfl, ?_, ?_⟩
            · intro y hy
              rcases List.mem_cons.mp hy with rfl | hy
              · rfl
              · exact hpre y hy
            · right
              simp only [List.countP_cons, isFailedPoll, if_true]
              push_cast
              omega
          · rintro ⟨pre, rest, hs, hpre, hcount⟩
            rcases List.cons_eq_append_iff.mp hs with ⟨-, h2⟩ | ⟨pre1, rfl, hs1⟩
            · simp at h2
            · refine ⟨pre1, rest, hs1, fun y hy => hpre y (List.mem_cons_of_mem _ hy), ?_⟩
              simp [List.countP_cons, isFailedPoll] at hcount
              right
              omega
      · by_cases hd : st = routerproto.OperationStatus.DONE
        · subst hd
          simp only [waitTilDone.loop, if_true, true_iff]
          exact ⟨[], s, rfl, by simp, Or.inl rfl⟩
        · simp only [waitTilDone.loop, hd, if_false]
          rw [ih retries]
          have hx : isDonePoll (.ok st) = false := by
            cases st <;> simp_all [isDonePoll]
          have hf : isFailedPoll (Except.ok st : Polled) = false := rfl
          constructor
          · rintro ⟨pre, rest, rfl, hpre, hcount⟩
            refine ⟨.ok st :: pre, rest, rfl, ?_, ?_⟩
            · intro y hy
              rcases List.mem_cons.mp hy with rfl | hy
              · exact hx
              · exact hpre y hy
            · simpa [List.countP_cons, hf] using hcount
          · rintro ⟨pre, rest, hs, hpre, hcount⟩
            rcases List.cons_eq_append_iff.mp hs with ⟨-, h2⟩ | ⟨pre1, rfl, hs1⟩
            · simp only [List.cons.injEq, Except.ok.injEq] at h2
              exact absurd h2.1.symm hd
            · refine ⟨pre1, rest, hs1, fun y hy => hpre y (List.mem_cons_of_mem _ hy), ?_⟩
              simpa [List.countP_cons, hf] using hcount

/-- The loop of `waitTilDone` returns the error `e` exactly when the answers
hold a failed poll with error `e` that reaches the retry budget, with no `DONE`
poll before it and the budget not reached before it. -/
theorem waitLoop_error_iff (maxRetriesCount : Int) (s : List Polled) (retries : Int)
    (e : GoError) :
    (waitTilDone.loop maxRetriesCount s retries).2 = .returned (some e) ↔
      ∃ pre rest, s = pre ++ .error e :: rest ∧ (∀ x ∈ pre, isDonePoll x = false) ∧
        (pre.countP isFailedPoll = 0 ∨
          retries + (pre.countP isFailedPoll : Int) < maxRetriesCount) ∧
        retries + (pre.countP isFailedPoll : Int) + 1 ≥ maxRetriesCount := by
  induction s generalizing retries with
  | nil => simp [waitTilDone.loop]
  | cons x s ih =>
      rcases x with e0 | st
      · by_cases h : retries + 1 ≥ maxRetriesCount
        · simp only [waitTilDone.loop, h, if_true]
          constructor
          · intro hc
            simp only [WaitOutcome.returned.injEq, Option.some.injEq] at hc
            subst hc
            exact ⟨[], s, rfl, by simp, Or.inl rfl, by simpa using h⟩
          · rintro ⟨pre, rest, hs, -, hcount, -⟩
            rcases List.cons_eq_append_iff.mp hs with ⟨-, h2⟩ | ⟨pre1, rfl, -⟩
            · simp only [List.cons.injEq, Except.error.injEq] at h2
              rw [h2.1]
            · simp [List.countP_cons, isFailedPoll] at hcount
              omega
        · simp only [waitTilDone.loop, h, if_false]
          rw [ih (retries + 1)]
          constructor
          · rintro ⟨pre, rest, rfl, hpre, hcount, hreach⟩
            refine ⟨.error e0 :: pre, rest, rfl, ?_, ?_, ?_⟩
            · intro y hy
              rcases List.mem_cons.mp hy with rfl | hy
              · rfl
              · exact hpre y hy
            · right
              simp only [List.countP_cons, isFailedPoll, if_true]
              push_cast
              omega
            · simp only [List.countP_cons, isFailedPoll, if_true]
              push_cast
              omega
          · rintro ⟨pre, rest, hs, hpre, hcount, hreach⟩
            rcases List.cons_eq_append_iff.mp hs with ⟨rfl, -⟩ | ⟨pre1, rfl, hs1⟩
            · simp at hreach
              omega
            · refine ⟨pre1, rest, hs1, fun y hy => hpre y (List.mem_cons_of_mem _ hy), ?_, ?_⟩
              · simp [List.countP_cons, isFailedPoll] at hcount
                right
                omega
              · simp [List.countP_cons, isFailedPoll] at hreach
                omega
      · by_cases hd : st = routerproto.OperationStatus.DONE
        · subst hd
          simp only [waitTilDone.loop, if_true]
          constructor
          · intro hc
            simp at hc
          · rintro ⟨pre, rest, hs, hpre, -, -⟩
            rcases List.cons_eq_append_iff.mp hs with ⟨-, h2⟩ | ⟨pre1, rfl, -⟩
            · simp at h2
            · have := hpre _ (List.mem_cons_self _ _)
              simp [isDonePoll] at this
        · simp only [waitTilDone.loop, hd, if_false]
          rw [ih retries]
          have hx : isDonePoll (.ok st) = false := by
            cases st <;> simp_all [isDonePoll]
          have hf : isFailedPoll (Except.ok st : Polled) = false := rfl
          constructor
          · rintro ⟨pre, rest, rfl, hpre, hcount, hreach⟩
            refine ⟨.ok st :: pre, rest, rfl, ?_, ?_, ?_⟩
            · intro y hy
              rcases List.mem_cons.mp hy with rfl | hy
              · exact hx
              · exact hpre y hy
            · simpa [List.countP_cons, hf] using hcount
            · simpa [List.countP_cons, hf] using hreach
          · rintro ⟨pre, rest, hs, hpre, hcount, hreach⟩
            rcases List.cons_eq_append_iff.mp hs with ⟨-, h2⟩ | ⟨pre1, rfl, hs1⟩
            · simp at h2
            · refine ⟨pre1, rest, hs1, fun y hy => hpre y (List.mem_cons_of_mem _ hy), ?_, ?_⟩
              · simpa [List.countP_cons, hf] using hcount
              · simpa [List.countP_cons, hf] using hreach

/-- Replacing reported `FAILED` statuses by `PENDING` changes nothing in a run
of the loop of `waitTilDone`. -/
theorem waitLoop_failedAsPending (maxRetriesCount : Int) (s : List Polled) (retries : Int) :
    waitTilDone.loop maxRetriesCount (s.map failedAsPending) retries =
      waitTilDone.loop maxRetriesCount s retries := by
  induction s generalizing retries with
  | nil => rfl
  | cons x s ih =>
      rcases x with e0 | st
      · simp [waitTilDone.loop, failedAsPending, ih]
      · cases st <;> simp [waitTilDone.loop, failedAsPending, ih]

/-- After `n` successful polls that all report `FAILED`, the loop of
`waitTilDone` is still polling. -/
theorem waitLoop_replicate_failed (maxRetriesCount : Int) (n : Nat) (retries : Int) :
    waitTilDone.loop maxRetriesCount (List.replicate n (.ok .FAILED)) retries =
      (n, .polling) := by
  induction n with
  | zero => rfl
  | succ n ih => simp [List.replicate_succ, waitTilDone.loop, ih]

/-- C12 (counterexample): with the retry budget 3, when the first poll
succeeds and reports the status `FAILED` and the second reports `DONE`,
`waitTilDone` (and `lockKeyRange` through it) polls twice and returns `nil`:
the failed status neither stops the polling nor yields an error. -/
theorem waitTilDone_polls_on_after_failed_status :
    demoCoordinator.GetOperation "op1" = [.ok .FAILED, .ok .DONE] ∧
    balancerCoordinator.waitTilDone demoCoordinator "op1" = (2, .returned none) ∧
    balancerCoordinator.lockKeyRange demoCoordinator { left := "a", right := "f" } =
      (2, .returned none) := by
  refine ⟨?_, ?_, ?_⟩ <;>
    simp [Coordinator.lockKeyRange, Coordinator.await, Coordinator.waitTilDone,
      demoCoordinator, balancerCoordinator, waitTilDone.loop]

/-- The loop of `waitTilDone` passes over polls that hold no `DONE` poll and
whose failures do not reach the retry budget: it makes them all and goes on
with the failures counted. -/
theorem waitLoop_append (maxRetriesCount : Int) (pre tail : List Polled) (retries : Int)
    (hpre : ∀ x ∈ pre, isDonePoll x = false)
    (hcount : pre.countP isFailedPoll = 0 ∨
      retries + (pre.countP isFailedPoll : Int) < maxRetriesCount) :
    waitTilDone.loop maxRetriesCount (pre ++ tail) retries =
      ((waitTilDone.loop maxRetriesCount tail
          (retries + (pre.countP isFailedPoll : Int))).1 + pre.length,
       (waitTilDone.loop maxRetriesCount tail
          (retries + (pre.countP isFailedPoll : Int))).2) := by
  induction pre generalizing retries with
  | nil => simp
  | cons x pre ih =>
      have hrest : ∀ y ∈ pre, isDonePoll y = false :=
        fun y hy => hpre y (List.mem_cons_of_mem _ hy)
      rcases x with e | st
      · have hc : retries + 1 + (pre.countP isFailedPoll : Int) < maxRetriesCount := by
          simp [List.countP_cons, isFailedPoll] at hcount
          omega
        have hlt : ¬ retries + 1 ≥ maxRetriesCount := by omega
        have hcast : retries + ((List.countP isFailedPoll (Except.error e :: pre) : Nat) : Int) =
            retries + 1 + (pre.countP isFailedPoll : Int) := by
          simp [List.countP_cons, isFailedPoll]
          omega
        simp only [List.cons_append, waitTilDone.loop, hlt, if_false, hcast, List.length_cons,
          List.append_eq]
        rw [ih (retries + 1) hrest (Or.inr hc)]
        simp [Nat.add_assoc]
      · have hx := hpre _ (List.mem_cons_self _ _)
        have hd : st ≠ routerproto.OperationStatus.DONE := by
          rintro rfl
          simp [isDonePoll] at hx
        have hcast : List.countP isFailedPoll ((Except.ok st : Polled) :: pre) =
            pre.countP isFailedPoll := by
          simp [List.countP_cons, isFailedPoll]
        rw [hcast] at hcount ⊢
        simp only [List.cons_append, waitTilDone.loop, hd, if_false, List.length_cons,
          List.append_eq]
        rw [ih retries hrest hcount]
        simp [Nat.add_assoc]

/-- C12 (amended): `waitTilDone` treats a successfully polled status `FAILED`
like `PENDING`:
(1) the run is the same with `PENDING` in its place;
(2) after any number of polls that all report `FAILED` it is still polling;
(3) a non-nil error it returns is always the error of a `GetOperation` call;
(4) it stops with `nil` at the first poll reporting `DONE`, having made the
    polls up to that one and no more, provided fewer than
    `max(1, maxRetriesCount)` polls failed before it;
(5) and it returns `nil` in that case only;
(6) the five operations `lockKeyRange`, `unlockKeyRange`, `splitKeyRange`,
    `mergeKeyRanges` and `moveKeyRange` return what `waitTilDone` returns for
    the operation id of the service's reply, and the service's error when the
    service call fails. -/
theorem waitTilDone_failed_status_as_pending (c : Coordinator) (env : CoordinatorEnv)
    (operationID : String) :
    (∀ env2 : CoordinatorEnv,
      env2.GetOperation operationID = (env.GetOperation operationID).map failedAsPending →
      c.waitTilDone env2 operationID = c.waitTilDone env operationID) ∧
    (∀ n : Nat, env.GetOperation operationID = List.replicate n (.ok .FAILED) →
      c.waitTilDone env operationID = (n, .polling)) ∧
    (∀ e, (c.waitTilDone env operationID).2 = .returned (some e) →
      Except.error e ∈ env.GetOperation operationID) ∧
    (∀ pre rest, env.GetOperation operationID = pre ++ .ok .DONE :: rest →
      (∀ x ∈ pre, isDonePoll x = false) →
      (pre.countP isFailedPoll : Int) < max 1 c.maxRetriesCount →
      c.waitTilDone env operationID = (pre.length + 1, .returned none)) ∧
    ((c.waitTilDone env operationID).2 = .returned none ↔
      ∃ pre rest, env.GetOperation operationID = pre ++ .ok .DONE :: rest ∧
        (∀ x ∈ pre, isDonePoll x = false) ∧
        (pre.countP isFailedPoll : Int) < max 1 c.maxRetriesCount) ∧
    (∀ (rng : KeyRange) (shardTo : Shard) (border : String),
      (env.LockKeyRange { LowerBound := rng.left, UpperBound := rng.right } =
          .ok operationID →
        c.lockKeyRange env rng = c.waitTilDone env operationID) ∧
      (env.UnlockKeyRange { LowerBound := rng.left, UpperBound := rng.right } =
          .ok operationID →
        c.unlockKeyRange env rng = c.waitTilDone env operationID) ∧
      (env.SplitKeyRange border = .ok operationID →
        c.splitKeyRange env border = c.waitTilDone env operationID) ∧
      (env.MergeKeyRange border = .ok operationID →
        c.mergeKeyRanges env border = c.waitTilDone env operationID) ∧
      (env.MoveKeyRange (moveKeyRange.request rng shardTo) = .ok operationID →
        c.moveKeyRange env rng shardTo = c.waitTilDone env operationID) ∧
      (∀ e,
        (env.LockKeyRange { LowerBound := rng.left, UpperBound := rng.right } = .error e →
          c.lockKeyRange env rng = (0, .returned (some e))) ∧
        (env.UnlockKeyRange { LowerBound := rng.left, UpperBound := rng.right } = .error e →
          c.unlockKeyRange env rng = (0, .returned (some e))) ∧
        (env.SplitKeyRange border = .error e →
          c.splitKeyRange env border = (0, .returned (some e))) ∧
        (env.MergeKeyRange border = .error e →
          c.mergeKeyRanges env border = (0, .returned (some e))) ∧
        (env.MoveKeyRange (moveKeyRange.request rng shardTo) = .error e →
          c.moveKeyRange env rng shardTo = (0, .returned (some e))))) := by
  refine ⟨?_, ?_, ?_, ?_, ?_, ?_⟩
  · intro env2 h
    simp only [Coordinator.waitTilDone, h, waitLoop_failedAsPending]
  · intro n h
    simp only [Coordinator.waitTilDone, h, waitLoop_replicate_failed]
  · intro e h
    obtain ⟨pre, rest, hs, -⟩ :=
      (waitLoop_error_iff c.maxRetriesCount (env.GetOperation operationID) 0 e).mp h
    simp [hs]
  · intro pre rest hs hpre hcount
    simp only [Coordinator.waitTilDone, hs]
    rw [waitLoop_append c.maxRetriesCount pre _ 0 hpre (by omega)]
    simp [waitTilDone.loop, Nat.add_comm]
  · rw [Coordinator.waitTilDone, waitLoop_nil_iff]
    constructor
    · rintro ⟨pre, rest, hs, hpre, hcount⟩
      exact ⟨pre, rest, hs, hpre, by omega⟩
    · rintro ⟨pre, rest, hs, hpre, hcount⟩
      exact ⟨pre, rest, hs, hpre, by omega⟩
  · intro rng shardTo border
    refine ⟨?_, ?_, ?_, ?_, ?_, ?_⟩
    · intro h
      simp [Coordinator.lockKeyRange, Coordinator.await, h]
    · intro h
      simp [Coordinator.unlockKeyRange, Coordinator.await, h]
    · intro h
      simp [Coordinator.splitKeyRange, Coordinator.await, h]
    · intro h
      simp [Coordinator.mergeKeyRanges, Coordinator.await, h]
    · intro h
      simp [Coordinator.moveKeyRange, Coordinator.await, h]
    · intro e
      refine ⟨?_, ?_, ?_, ?_, ?_⟩ <;> intro h <;>
        simp [Coordinator.lockKeyRange, Coordinator.unlockKeyRange, Coordinator.splitKeyRange,
          Coordinator.mergeKeyRanges, Coordinator.moveKeyRange, Coordinator.await, h]

/-- C12 (witness): the operation `op3`, polled as `FAILED` four times, leaves
`waitTilDone` polling after four polls. -/
theorem waitTilDone_failed_status_as_pending_witness :
    balancerCoordinator.waitTilDone demoCoordinator "op3" = (4, .polling) :=
  (waitTilDone_failed_status_as_pending balancerCoordinator demoCoordinator "op3").2.1 4
    (by simp [demoCoordinator])

/-- `strconv.Atoi` accepts a string with the value `m` exactly when the string
has that value; the quoting plays no part. -/
theorem atoi_ok_iff (Quote : String → String) (s : String) (m : Int) :
    Atoi Quote s = .ok m ↔ atoiValue s = .ok m := by
  unfold Atoi
  cases h : atoiValue s with
  | ok n => simp
  | error f => cases f <;> simp

/-- The character with a valid code point `k` has the code `k`. -/
theorem toNat_ofNat_of_valid (k : Nat) (h : k < 55296 ∨ (57343 < k ∧ k < 1114112)) :
    (Char.ofNat k).toNat = k := by
  have hv : k.isValidChar := h
  unfold Char.ofNat
  rw [dif_pos hv]
  rfl

/-- When `strconv.Atoi` accepts a string of one character, the character is a
decimal digit and the value is that digit. -/
theorem atoi_singleton (Quote : String → String) (c : Char) (m : Int)
    (h0 : Atoi Quote (String.singleton c) = .ok m) :
    48 ≤ c.toNat ∧ c.toNat ≤ 57 ∧ m = (c.toNat : Int) - 48 := by
  have h := (atoi_ok_iff Quote _ _).mp h0
  have hl : (String.singleton c).toList = [c] := rfl
  by_cases hd : 48 ≤ c.toNat ∧ c.toNat ≤ 57
  · refine ⟨hd.1, hd.2, ?_⟩
    have hplus : c ≠ '+' := by
      rintro rfl
      simp at hd
    have hminus : c ≠ '-' := by
      rintro rfl
      simp at hd
    unfold atoiValue at h
    rw [hl] at h
    split at h
    · rename_i heq
      simp at heq
      exact absurd heq.1 hplus
    · rename_i heq
      simp at heq
      exact absurd heq.1 hminus
    · simp [parseDigits, digitValue, hd] at h
      split_ifs at h with hr
      · simp at h
        omega
  · exfalso
    unfold atoiValue at h
    rw [hl] at h
    split at h
    · rename_i heq
      simp at heq
      simp [heq.2] at h
    · rename_i heq
      simp at heq
      simp [heq.2] at h
    · simp [parseDigits, digitValue, hd] at h

/-- C15 (the code at the failing input, and for every id): for the destination
shard with id 1, `moveKeyRange` sends the one-character string with code point
1, which `strconv.Atoi` rejects; for the shard with id 49 it sends the string
`1`, which parses to 1; and for no shard id at all does parsing the sent
`ToShardId` give the id back. -/
theorem moveKeyRange_shard_id_is_code_point (Quote : String → String) (rng : KeyRange) :
    (moveKeyRange.request rng { id := 1 }).ToShardId = String.singleton (Char.ofNat 1) ∧
    (Atoi Quote (moveKeyRange.request rng { id := 1 }).ToShardId).isOk = false ∧
    (moveKeyRange.request rng { id := 49 }).ToShardId = "1" ∧
    Atoi Quote (moveKeyRange.request rng { id := 49 }).ToShardId = .ok 1 ∧
    (∀ n : Int, Atoi Quote (moveKeyRange.request rng { id := n }).ToShardId ≠ .ok n) := by
  refine ⟨rfl, rfl, rfl, rfl, ?_⟩
  intro n h
  simp only [moveKeyRange.request, stringOfRune] at h
  split_ifs at h with hv
  · obtain ⟨h1, h2, h3⟩ := atoi_singleton Quote _ _ h
    have hk : ((int32 n).toNat < 55296 ∨ (57343 < (int32 n).toNat ∧
        (int32 n).toNat < 1114112)) := by omega
    rw [toNat_ofNat_of_valid _ hk] at h1 h2 h3
    unfold int32 at hv hk h1 h2 h3
    omega
  · obtain ⟨h1, h2, -⟩ := atoi_singleton Quote _ _ h
    have h65 : (Char.ofNat 65533).toNat = 65533 := rfl
    omega

/-! ## Theorems: rule maps and the order of calls in `PreRoute` -/

/-- C13 (the code at the failing input): with a backend rule for `alice` on
`db1` and no frontend rule, `NewRouter` stores the key in the frontend rules
with a `nil` rule, and `PreRoute` for the client `alice` on `db1` sends no
`ErrorResponse`: it calls `AssignRule` with the `nil` rule, then `Auth`, then
matches a route and returns the client. -/
theorem preRoute_proceeds_with_nil_frontend_rule :
    ∃ r, NewRouter [] [aliceBackendRule] = .ok r ∧
      r.frontendRules (NewRouteKey aliceEnv.Usr aliceEnv.DB) = some none ∧
      r.PreRoute aliceEnv =
        ([RouteEvent.Init, RouteEvent.AssignRule none, RouteEvent.Auth,
          RouteEvent.MatchRoute (NewRouteKey "alice" "db1") (some aliceBackendRule) none,
          RouteEvent.AddClient, RouteEvent.AssignRoute], PreRouteResult.client) ∧
      sentMessages (r.PreRoute aliceEnv).1 = [] :=
  ⟨_, rfl, rfl, rfl, rfl⟩

/-- Assigning both maps at one key keeps their key sets equal. -/
theorem sameKeys_addRouteRule (r : RRouter) (key : RouteKey) (befule : Option BERule)
    (frRule : Option FRRule) (h : SameKeys r) :
    SameKeys (r.AddRouteRule key befule frRule).1 ∧ (r.AddRouteRule key befule frRule).2 = none := by
  refine ⟨?_, rfl⟩
  intro k
  by_cases hk : k = key
  · simp [RRouter.AddRouteRule, RuleMap.set, hk]
  · simpa [RRouter.AddRouteRule, RuleMap.set, hk] using h k

/-- The second loop of `initRules` returns no error and keeps the key sets of
the two maps equal. -/
theorem sameKeys_initRules_loop (frs : RuleMap FRRule) (rules : List BERule) (router : RRouter)
    (h : SameKeys router) :
    SameKeys (initRules.loop frs rules router).1 ∧ (initRules.loop frs rules router).2 = none := by
  induction rules generalizing router with
  | nil => exact ⟨h, rfl⟩
  | cons berule rest ih =>
      simp only [initRules.loop, RRouter.AddRouteRule]
      exact ih _ (sameKeys_addRouteRule router _ _ _ h).1

/-- C17: `NewRouter` always returns a router, and its frontend-rule and
backend-rule maps have the same key set; every `AddRouteRule` call keeps the
key sets equal; and on a router whose key sets are equal, a frontend-rule
lookup that hits is followed by a backend-rule lookup that hits, so that
`PreRoute`, once the client initialised, never ends in the branch that
returns `Failed to route client` after the `Init` call alone. -/
theorem rule_maps_have_same_keys (FrontendRules : List FRRule) (BackendRules : List BERule) :
    (∃ r, NewRouter FrontendRules BackendRules = .ok r ∧ SameKeys r) ∧
    (∀ (r : RRouter) (key : RouteKey) (befule : Option BERule) (frRule : Option FRRule),
      SameKeys r → SameKeys (r.AddRouteRule key befule frRule).1) ∧
    (∀ (r : RRouter) (env : PreRouteEnv), SameKeys r →
      (∀ frRule, r.frontendRules (NewRouteKey env.Usr env.DB) = some frRule →
        ∃ beRule, r.backendRules (NewRouteKey env.Usr env.DB) = some beRule) ∧
      (env.InitErr = none →
        r.PreRoute env ≠ ([RouteEvent.Init], PreRouteResult.error "Failed to route client"))) := by
  refine ⟨?_, fun r key be fr h => (sameKeys_addRouteRule r key be fr h).1, ?_⟩
  · have hempty : SameKeys { frontendRules := RuleMap.empty, backendRules := RuleMap.empty } :=
      fun _ => rfl
    obtain ⟨h1, h2⟩ := sameKeys_initRules_loop
      (initRules.frs FrontendRules RuleMap.empty) BackendRules _ hempty
    unfold NewRouter RRouter.initRules
    cases hr : initRules.loop (initRules.frs FrontendRules RuleMap.empty) BackendRules
        { frontendRules := RuleMap.empty, backendRules := RuleMap.empty } with
    | mk router err =>
        rw [hr] at h1 h2
        simp only at h1 h2
        subst h2
        exact ⟨router, rfl, h1⟩
  · intro r env hsame
    have hlookup : ∀ frRule, r.frontendRules (NewRouteKey env.Usr env.DB) = some frRule →
        ∃ beRule, r.backendRules (NewRouteKey env.Usr env.DB) = some beRule := by
      intro frRule hfr
      have := hsame (NewRouteKey env.Usr env.DB)
      rw [hfr] at this
      exact Option.isSome_iff_exists.mp this.symm
    refine ⟨hlookup, ?_⟩
    intro hInit hEq
    unfold RRouter.PreRoute at hEq
    simp only [hInit] at hEq
    cases hfr : r.frontendRules (NewRouteKey env.Usr env.DB) with
    | none =>
        simp only [hfr] at hEq
        cases hs : env.SendErr (.ErrorResponse "" "failed to preroute") <;>
          simp [PreRoute.sendAll, hs] at hEq
    | some frRule =>
        obtain ⟨beRule, hbe⟩ := hlookup frRule hfr
        simp only [hfr, hbe] at hEq
        cases ha : env.AuthErr with
        | some err => simp [ha] at hEq
        | none =>
            cases hm : env.MatchRouteErr <;> simp [ha, hm] at hEq

/-- C17 (witness): after one `AddRouteRule` on the router without rules, the
two maps have the same key set. -/
theorem rule_maps_have_same_keys_witness :
    SameKeys (emptyRouter.AddRouteRule (NewRouteKey "alice" "db1") (some aliceBackendRule)
      (some aliceFrontendRule)).1 :=
  (rule_maps_have_same_keys [] []).2.1 emptyRouter (NewRouteKey "alice" "db1")
    (some aliceBackendRule) (some aliceFrontendRule) (fun _ => rfl)

/-- C14: in every run of `PreRoute`,
(1) if `MatchRoute`, `AddClient` or `AssignRoute` is called at all, then the
    client `Init` succeeded, the frontend-rule lookup hit, `Auth` returned no
    error, and the trace begins `Init`, `AssignRule`, `Auth`, `MatchRoute`:
    the route is matched only after authentication;
(2) if `Init` fails, or the frontend-rule lookup misses, or `Auth` returns an
    error, then none of `MatchRoute`, `AddClient`, `AssignRoute` is called and
    `PreRoute` returns an error without a client;
(3) when `PreRoute` returns the client, the calls are exactly `Init`,
    `AssignRule`, `Auth`, `MatchRoute`, `AddClient`, `AssignRoute`, so
    `AssignRule` and `AssignRoute` are each called exactly once. -/
theorem preRoute_routes_only_after_auth (r : RRouter) (env : PreRouteEnv) :
    ((∃ ev ∈ (r.PreRoute env).1, isRoutingEvent ev = true) →
      env.InitErr = none ∧ env.AuthErr = none ∧
      ∃ frRule beRule rest,
        r.frontendRules (NewRouteKey env.Usr env.DB) = some frRule ∧
        (r.PreRoute env).1 =
          [RouteEvent.Init, RouteEvent.AssignRule frRule, RouteEvent.Auth,
            RouteEvent.MatchRoute (NewRouteKey env.Usr env.DB) beRule frRule] ++ rest) ∧
    ((env.InitErr ≠ none ∨ r.frontendRules (NewRouteKey env.Usr env.DB) = none ∨
        env.AuthErr ≠ none) →
      (∀ ev ∈ (r.PreRoute env).1, isRoutingEvent ev = false) ∧
      ∃ err, (r.PreRoute env).2 = PreRouteResult.error err) ∧
    ((r.PreRoute env).2 = PreRouteResult.client →
      (∃ frRule beRule, (r.PreRoute env).1 =
        [RouteEvent.Init, RouteEvent.AssignRule frRule, RouteEvent.Auth,
          RouteEvent.MatchRoute (NewRouteKey env.Usr env.DB) beRule frRule,
          RouteEvent.AddClient, RouteEvent.AssignRoute]) ∧
      (r.PreRoute env).1.countP isAssignRule = 1 ∧
      (r.PreRoute env).1.countP isAssignRoute = 1) := by
  cases hInit : env.InitErr with
  | some err => simp [RRouter.PreRoute, hInit, isRoutingEvent]
  | none =>
      cases hfr : r.frontendRules (NewRouteKey env.Usr env.DB) with
      | none =>
          cases hs : env.SendErr (.ErrorResponse "" "failed to preroute") <;>
            simp [RRouter.PreRoute, hInit, hfr, PreRoute.sendAll, hs, isRoutingEvent]
      | some frRule =>
          cases hbe : r.backendRules (NewRouteKey env.Usr env.DB) with
          | none => simp [RRouter.PreRoute, hInit, hfr, hbe, isRoutingEvent]
          | some beRule =>
              cases ha : env.AuthErr with
              | some err => simp [RRouter.PreRoute, hInit, hfr, hbe, ha, isRoutingEvent]
              | none =>
                  cases hm : env.MatchRouteErr <;>
                    simp [RRouter.PreRoute, hInit, hfr, hbe, ha, hm, isRoutingEvent,
                      isAssignRule, isAssignRoute, List.countP_cons]

/-- C14 (witness): for `alice` on the router that has both her rules, `PreRoute`
returns the client after the six calls in order. -/
theorem preRoute_routes_only_after_auth_witness :
    (∃ frRule beRule,
      ((emptyRouter.AddRouteRule (NewRouteKey "alice" "db1") (some aliceBackendRule)
        (some aliceFrontendRule)).1.PreRoute aliceEnv).1 =
        [RouteEvent.Init, RouteEvent.AssignRule frRule, RouteEvent.Auth,
          RouteEvent.MatchRoute (NewRouteKey aliceEnv.Usr aliceEnv.DB) beRule frRule,
          RouteEvent.AddClient, RouteEvent.AssignRoute]) ∧
    ((emptyRouter.AddRouteRule (NewRouteKey "alice" "db1") (some aliceBackendRule)
      (some aliceFrontendRule)).1.PreRoute aliceEnv).1.countP isAssignRule = 1 ∧
    ((emptyRouter.AddRouteRule (NewRouteKey "alice" "db1") (some aliceBackendRule)
      (some aliceFrontendRule)).1.PreRoute aliceEnv).1.countP isAssignRoute = 1 :=
  (preRoute_routes_only_after_auth
    (emptyRouter.AddRouteRule (NewRouteKey "alice" "db1") (some aliceBackendRule)
      (some aliceFrontendRule)).1 aliceEnv).2.2 rfl

/-! ## Theorems: the query log -/

/-- C18: `ProcessQuery` either leaves the query log as it was, or appends the
query `q` to it and returns an error; so whenever it returns `nil` nothing has
been handed to `DumpQuery`.  For a statement `CREATE SHARDING COLUMN`,
`ADD KEY RANGE` or `ADD SHARD`, whatever the query router answers,
`ProcessQuery` returns `nil` and the query log is unchanged. -/
theorem processQuery_dumps_only_on_error {σ : Type} (deps : ConsoleDeps) (c : Local σ)
    (q : String) (cl : Client) :
    ((Local.ProcessQuery deps c q cl).1.1.Qlog = c.Qlog ∨
      ((Local.ProcessQuery deps c q cl).1.1.Qlog = c.Qlog ++ [q] ∧
        ∃ err, (Local.ProcessQuery deps c q cl).2 = .returned (some err))) ∧
    ((Local.ProcessQuery deps c q cl).2 = .returned none →
      (Local.ProcessQuery deps c q cl).1.1.Qlog = c.Qlog) ∧
    (∀ tstmt, deps.Parse q = .ok tstmt → isCreateOrAdd tstmt = true →
      (Local.ProcessQuery deps c q cl).2 = .returned none ∧
      (Local.ProcessQuery deps c q cl).1.1.Qlog = c.Qlog) := by
  have hdump : ∀ r : (σ × Client) × Option GoError,
      ((c.dumpIfError q r).1.1.Qlog = c.Qlog ∨
        ((c.dumpIfError q r).1.1.Qlog = c.Qlog ++ [q] ∧
          ∃ err, (c.dumpIfError q r).2 = .returned (some err))) ∧
      ((c.dumpIfError q r).2 = .returned none → (c.dumpIfError q r).1.1.Qlog = c.Qlog) := by
    rintro ⟨⟨q1, cl1⟩, e⟩
    cases e <;> simp [Local.dumpIfError]
  have hnil : ∀ r : (σ × Client) × Option GoError, r.2 = none →
      (c.dumpIfError q r).2 = .returned none ∧ (c.dumpIfError q r).1.1.Qlog = c.Qlog := by
    rintro ⟨⟨q1, cl1⟩, e⟩ h
    simp only at h
    subst h
    simp [Local.dumpIfError]
  unfold Local.ProcessQuery
  cases hp : deps.Parse q with
  | error e => simp
  | ok tstmt =>
      cases tstmt with
      | Show stmt =>
          simp only [isCreateOrAdd]
          split_ifs <;> simp [Local.showResult]
      | Shutdown =>
          simp only [isCreateOrAdd]
          split <;> simp
      | Other tag =>
          simp only [isCreateOrAdd]
          split <;> simp
      | SplitKeyRange stmt =>
          simpa [isCreateOrAdd] using hdump _
      | Lock stmt =>
          simpa [isCreateOrAdd] using hdump _
      | ShardingColumn stmt =>
          have h1 := hdump (Local.AddShardingColumn c.Qrouter c.qstate cl stmt)
          have h2 := hnil (Local.AddShardingColumn c.Qrouter c.qstate cl stmt) rfl
          exact ⟨h1.1, h1.2, fun _ _ _ => h2⟩
      | AddKeyRange stmt =>
          have h1 := hdump (Local.AddKeyRange c.Qrouter deps.KeyRangeFromSQL c.qstate cl stmt)
          have h2 := hnil (Local.AddKeyRange c.Qrouter deps.KeyRangeFromSQL c.qstate cl stmt) rfl
          exact ⟨h1.1, h1.2, fun _ _ _ => h2⟩
      | Shard stmt =>
          have h1 := hdump (Local.AddShard c.Qrouter c.qstate cl stmt
            { ConnUsr := "", ConnDB := "", Passwd := "" })
          have h2 := hnil (Local.AddShard c.Qrouter c.qstate cl stmt
            { ConnUsr := "", ConnDB := "", Passwd := "" }) rfl
          exact ⟨h1.1, h1.2, fun _ _ _ => h2⟩

/-- C18 (witness): `ADD SHARD sh3` on the console whose query router rejects
the shard returns `nil` and leaves the query log empty. -/
theorem processQuery_dumps_only_on_error_witness :
    (Local.ProcessQuery demoDeps failingConsole "ADD SHARD sh3" freshClient).2 =
      .returned none ∧
    (Local.ProcessQuery demoDeps failingConsole "ADD SHARD sh3" freshClient).1.1.Qlog =
      failingConsole.Qlog :=
  (processQuery_dumps_only_on_error demoDeps failingConsole "ADD SHARD sh3" freshClient).2.2
    (.Shard { Name := "sh3" }) (by simp [demoDeps, demoParse]) rfl

end Spqr
